import Mathlib

/-!
Verification of the vibe-cast state-synchronization and command-dispatch core.

The definitions below are a shallow embedding of the Rust source:
  * `crates/models/src/lib.rs` — the data model (`MessageConfig`, presets,
    `FolderPlaybackQueue`, `RemoteCommand`, `BroadcastState`),
  * `crates/state/src/lib.rs` — `AppStateSync` (the canonical store), its
    defaults, `get_state`, `broadcast`, `load_config_from_file`,
  * `crates/server/src/lib.rs` — `flatten_message_tree`,
    `build_flat_message_tree`, `collect_messages_from_folder`, and the
    command dispatcher `handle_command`.

JSON documents (`serde_json::Value`) are modelled by the inductive `Json`;
numbers are rationals (every number a `serde_json::Value` can hold is a real
number, and the operations performed here are representation-preserving).
The store is modelled as a plain record mutated by a step function: the
embedding is sequential, so lock acquisition always succeeds and the
lock-poisoning fallbacks of the source are never taken.
-/

set_option linter.unusedVariables false

namespace VibeCast

/-- `serde_json::Value`. Objects are association lists with unique keys;
lookup is by key, so the key order never matters to the embedded code. -/
inductive Json where
  | null
  | bool (b : Bool)
  | num (q : ℚ)
  | str (s : String)
  | arr (elems : List Json)
  | obj (fields : List (String × Json))

/-- Key lookup in a JSON object's field list (first match). -/
def jsonLookup (key : String) : List (String × Json) → Option Json
  | [] => none
  | (k, v) :: rest => if k = key then some v else jsonLookup key rest

/-- `Value::get` with a string key: map lookup on objects, `None` otherwise. -/
def Json.get : Json → String → Option Json
  | .obj fields, key => jsonLookup key fields
  | _, _ => none

/-- `Value::as_str`. -/
def Json.asStr : Json → Option String
  | .str s => some s
  | _ => none

/-- Deserializing a `bool`. -/
def Json.asBool : Json → Option Bool
  | .bool b => some b
  | _ => none

/-- Deserializing an `f64`: any JSON number succeeds. -/
def Json.asNum : Json → Option ℚ
  | .num q => some q
  | _ => none

/-- `Value::as_array`. -/
def Json.asArr : Json → Option (List Json)
  | .arr xs => some xs
  | _ => none

/-- `Value::as_object`. -/
def Json.asObj : Json → Option (List (String × Json))
  | .obj fields => some fields
  | _ => none

/-- `Value::as_u64` (also deserializing a `u64`): an integral number in
`[0, 2^64)`. -/
def Json.asU64 : Json → Option ℕ
  | .num q => if q.den = 1 ∧ 0 ≤ q.num ∧ q.num < 2 ^ 64 then some q.num.toNat else none
  | _ => none

/-- Deserializing a `u32`: an integral number in `[0, 2^32)`. -/
def Json.asU32 : Json → Option ℕ
  | .num q => if q.den = 1 ∧ 0 ≤ q.num ∧ q.num < 2 ^ 32 then some q.num.toNat else none
  | _ => none

/-- `Value::is_null`. -/
def Json.isNull : Json → Bool
  | .null => true
  | _ => false

/-- `serde_json` map insert: replace the value at an existing key in place,
else append the new binding. -/
def jsonInsert (key : String) (v : Json) : List (String × Json) → List (String × Json)
  | [] => [(key, v)]
  | (k, w) :: rest => if k = key then (key, v) :: rest else (k, w) :: jsonInsert key v rest

/-- Deserializing an optional struct field (serde `Option<T>`): a missing or
`null` field is `None`; a present non-null value must deserialize as `T`. -/
def optField (read : Json → Option α) (fields : List (String × Json)) (key : String) :
    Option (Option α) :=
  match jsonLookup key fields with
  | none => some none
  | some v => if v.isNull then some none else (read v).map some

/-- `MessageConfig` from `crates/models/src/lib.rs`. `repeat_count` is a Rust
`u32`, kept here as `ℕ` — decoding enforces the `u32` range. `speed` is an
`f64`, modelled as `ℚ`. -/
structure MessageConfig where
  id : String
  text : String
  textFile : Option String
  textStyle : String
  textStylePreset : Option String
  styleOverrides : Option Json
  repeatCount : Option ℕ
  speed : Option ℚ
  splitEnabled : Option Bool
  splitSeparator : Option String

/-- serde `Deserialize` for `MessageConfig`: camelCase field names, `id`,
`text` and `textStyle` required, the rest optional, unknown fields ignored. -/
def fromJsonMessageConfig : Json → Option MessageConfig
  | .obj fields => do
    let id ← (jsonLookup "id" fields).bind Json.asStr
    let text ← (jsonLookup "text" fields).bind Json.asStr
    let textFile ← optField Json.asStr fields "textFile"
    let textStyle ← (jsonLookup "textStyle" fields).bind Json.asStr
    let textStylePreset ← optField Json.asStr fields "textStylePreset"
    let styleOverrides ← optField some fields "styleOverrides"
    let repeatCount ← optField Json.asU32 fields "repeatCount"
    let speed ← optField Json.asNum fields "speed"
    let splitEnabled ← optField Json.asBool fields "splitEnabled"
    let splitSeparator ← optField Json.asStr fields "splitSeparator"
    pure { id, text, textFile, textStyle, textStylePreset, styleOverrides,
           repeatCount, speed, splitEnabled, splitSeparator }
  | _ => none

/-- An optional serialized field: present when the value is `Some`, skipped
when it is `None` (serde `skip_serializing_if = "Option::is_none"`). -/
def optEntry (name : String) (v : Option Json) : List (String × Json) :=
  match v with
  | some j => [(name, j)]
  | none => []

/-- The serialized field list of a `MessageConfig`: fields in declaration
order, camelCase names, `None` fields skipped. -/
def toJsonFields (m : MessageConfig) : List (String × Json) :=
  [("id", Json.str m.id), ("text", Json.str m.text)]
    ++ optEntry "textFile" (m.textFile.map Json.str)
    ++ [("textStyle", Json.str m.textStyle)]
    ++ optEntry "textStylePreset" (m.textStylePreset.map Json.str)
    ++ optEntry "styleOverrides" m.styleOverrides
    ++ optEntry "repeatCount" (m.repeatCount.map fun k => Json.num (k : ℚ))
    ++ optEntry "speed" (m.speed.map Json.num)
    ++ optEntry "splitEnabled" (m.splitEnabled.map Json.bool)
    ++ optEntry "splitSeparator" (m.splitSeparator.map Json.str)

/-- serde `Serialize` for `MessageConfig`. -/
def toJsonMessageConfig (m : MessageConfig) : Json :=
  Json.obj (toJsonFields m)

/-- The `MessageConfig` values representable in the Rust program: the repeat
count fits in a `u32`, and `styleOverrides` is never `Some(Null)` (serde turns
a JSON `null` in an `Option` field into `None`, so no decode produces it). -/
def MessageConfig.wf (m : MessageConfig) : Prop :=
  (∀ k ∈ m.repeatCount, k < 2 ^ 32) ∧ ∀ v ∈ m.styleOverrides, v ≠ Json.null

theorem sizeOf_jsonLookup {key : String} :
    ∀ {fields : List (String × Json)} {v : Json},
      jsonLookup key fields = some v → sizeOf v < sizeOf fields := by
  intro fields
  induction fields with
  | nil => intro v h; simp [jsonLookup] at h
  | cons kv rest ih =>
    intro v h
    obtain ⟨k, w⟩ := kv
    simp only [jsonLookup] at h
    split at h
    · cases h
      simp only [List.cons.sizeOf_spec, Prod.mk.sizeOf_spec]
      omega
    · have := ih h
      simp only [List.cons.sizeOf_spec, Prod.mk.sizeOf_spec]
      omega

mutual

/-- `flatten_message_tree` from `crates/server/src/lib.rs` (the same function
appears verbatim as `flatten_message_tree_value` in the state and models
crates): depth-first pre-order walk; `folder` nodes recurse into `children`,
`message` nodes contribute their embedded message when it deserializes,
everything else is skipped. -/
def flattenWalk : Json → List MessageConfig
  | .arr xs => flattenWalkList xs
  | .obj fields =>
    match jsonLookup "type" fields with
    | some (.str t) =>
      if t = "message" then
        match jsonLookup "message" fields with
        | some mv => (fromJsonMessageConfig mv).toList
        | none => []
      else if t = "folder" then
        match h : jsonLookup "children" fields with
        | some children => flattenWalk children
        | none => []
      else []
    | _ => []
  | _ => []
termination_by j => sizeOf j
decreasing_by
  · simp only [Json.arr.sizeOf_spec]; omega
  · have := sizeOf_jsonLookup h
    simp only [Json.obj.sizeOf_spec]
    omega

/-- The inner loop of the flatten walk over a list of nodes. -/
def flattenWalkList : List Json → List MessageConfig
  | [] => []
  | x :: xs => flattenWalk x ++ flattenWalkList xs
termination_by xs => sizeOf xs
decreasing_by
  · simp only [List.cons.sizeOf_spec]; omega
  · simp only [List.cons.sizeOf_spec]; omega

end

/-- `flatten_message_tree` entry point. -/
def flattenMessageTree (tree : Json) : List MessageConfig :=
  flattenWalk tree

/-- `build_flat_message_tree`: one flat `message` node per message, preserving
list order (the `json!` in the source writes keys `type`, `id`, `message`). -/
def buildFlatMessageTree (messages : List MessageConfig) : Json :=
  Json.arr (messages.map fun m =>
    Json.obj [("type", Json.str "message"), ("id", Json.str m.id),
              ("message", toJsonMessageConfig m)])

mutual

/-- The `find_folder` helper of `collect_messages_from_folder`: first `folder`
node whose `id` matches, recursing into arrays and into folders' children. -/
def findFolder (folderId : String) : Json → Option Json
  | .arr xs => findFolderList folderId xs
  | .obj fields =>
    match jsonLookup "type" fields with
    | some (.str t) =>
      if t = "folder" then
        if (jsonLookup "id" fields).bind Json.asStr = some folderId then
          some (.obj fields)
        else
          match h : jsonLookup "children" fields with
          | some children => findFolder folderId children
          | none => none
      else none
    | _ => none
  | _ => none
termination_by j => sizeOf j
decreasing_by
  · simp only [Json.arr.sizeOf_spec]; omega
  · have := sizeOf_jsonLookup h
    simp only [Json.obj.sizeOf_spec]
    omega

/-- First match of `find_folder` over a list of nodes. -/
def findFolderList (folderId : String) : List Json → Option Json
  | [] => none
  | x :: xs =>
    match findFolder folderId x with
    | some found => some found
    | none => findFolderList folderId xs
termination_by xs => sizeOf xs
decreasing_by
  · simp only [List.cons.sizeOf_spec]; omega
  · simp only [List.cons.sizeOf_spec]; omega

end

mutual

/-- The `collect_ids` helper of `collect_messages_from_folder`: depth-first
collection of the `id` stored inside each `message` node's `message` object. -/
def collectIds : Json → List String
  | .arr xs => collectIdsList xs
  | .obj fields =>
    match jsonLookup "type" fields with
    | some (.str t) =>
      if t = "message" then
        match (jsonLookup "message" fields).bind (fun mv => (mv.get "id").bind Json.asStr) with
        | some id => [id]
        | none => []
      else if t = "folder" then
        match h : jsonLookup "children" fields with
        | some children => collectIds children
        | none => []
      else []
    | _ => []
  | _ => []
termination_by j => sizeOf j
decreasing_by
  · simp only [Json.arr.sizeOf_spec]; omega
  · have := sizeOf_jsonLookup h
    simp only [Json.obj.sizeOf_spec]
    omega

/-- The inner loop of `collect_ids` over a list of nodes. -/
def collectIdsList : List Json → List String
  | [] => []
  | x :: xs => collectIds x ++ collectIdsList xs
termination_by xs => sizeOf xs
decreasing_by
  · simp only [List.cons.sizeOf_spec]; omega
  · simp only [List.cons.sizeOf_spec]; omega

end

/-- `collect_messages_from_folder`: locate the folder, then collect every
message id under its `children`; empty when the folder is absent. -/
def collectMessagesFromFolder (folderId : String) (tree : Json) : List String :=
  match findFolder folderId tree with
  | some folder =>
    match folder.get "children" with
    | some children => collectIds children
    | none => []
  | none => []

/-- `CommonSettings` (`intensity`/`dim`, both `f64`, defaults 1.0/1.0). -/
structure CommonSettings where
  intensity : ℚ
  dim : ℚ

/-- `VisualizationPreset` from the models crate (`order` is a `u32`). -/
structure VisualizationPreset where
  id : String
  name : String
  visualizationId : String
  settings : Json
  enabled : Option Bool
  order : Option ℕ
  icon : Option String

/-- `TextStylePreset` from the models crate. -/
structure TextStylePreset where
  id : String
  name : String
  textStyleId : String
  settings : Json

/-- `FolderPlaybackQueue` from the models crate (`current_index` is a `usize`). -/
structure FolderPlaybackQueue where
  folderId : String
  messageIds : List String
  currentIndex : ℕ

/-- The `{command, payload}` envelope (`RemoteCommand` in the models crate). -/
structure RemoteCommand where
  command : String
  payload : Option Json

/-- The mutable fields of `AppStateSync` that make up the canonical state
(the fields serialized into `BroadcastState`). `config_base_path`,
`server_port` and `last_e2e_report` are bookkeeping outside the canonical
state and are not modelled. -/
structure AppState where
  activeVisualization : String
  enabledVisualizations : List String
  commonSettings : CommonSettings
  visualizationSettings : Json
  visualizationPresets : List VisualizationPreset
  activeVisualizationPreset : Option String
  messages : List MessageConfig
  messageTree : Json
  defaultTextStyle : String
  textStyleSettings : Json
  textStylePresets : List TextStylePreset
  messageStats : Json
  folderPlaybackQueue : Option FolderPlaybackQueue
  triggeredMessage : Option MessageConfig

/-- `BroadcastState`: the snapshot assembled by `AppStateSync::get_state`,
equal to the canonical fields plus the legacy `mode` alias. -/
structure BroadcastState where
  activeVisualization : String
  enabledVisualizations : List String
  commonSettings : CommonSettings
  visualizationSettings : Json
  visualizationPresets : List VisualizationPreset
  activeVisualizationPreset : Option String
  messages : List MessageConfig
  messageTree : Json
  defaultTextStyle : String
  textStyleSettings : Json
  textStylePresets : List TextStylePreset
  messageStats : Json
  triggeredMessage : Option MessageConfig
  folderPlaybackQueue : Option FolderPlaybackQueue
  mode : String

/-- `AppStateSync::get_state`: read every field and assemble a snapshot; the
legacy `mode` field repeats the active visualization. (The per-field
poisoned-lock defaults of the source are unreachable in this sequential
embedding.) -/
def getState (s : AppState) : BroadcastState :=
  { activeVisualization := s.activeVisualization
    enabledVisualizations := s.enabledVisualizations
    commonSettings := s.commonSettings
    visualizationSettings := s.visualizationSettings
    visualizationPresets := s.visualizationPresets
    activeVisualizationPreset := s.activeVisualizationPreset
    messages := s.messages
    messageTree := s.messageTree
    defaultTextStyle := s.defaultTextStyle
    textStyleSettings := s.textStyleSettings
    textStylePresets := s.textStylePresets
    messageStats := s.messageStats
    triggeredMessage := s.triggeredMessage
    folderPlaybackQueue := s.folderPlaybackQueue
    mode := s.activeVisualization }

/-- serde `Deserialize` for `CommonSettings` (field names not renamed; both
fields required; unknown fields ignored). -/
def fromJsonCommonSettings : Json → Option CommonSettings
  | .obj fields => do
    let intensity ← (jsonLookup "intensity" fields).bind Json.asNum
    let dim ← (jsonLookup "dim" fields).bind Json.asNum
    pure { intensity, dim }
  | _ => none

/-- serde `Deserialize` for `VisualizationPreset` (camelCase; `id`, `name`,
`visualizationId`, `settings` required; `settings` accepts any JSON value). -/
def fromJsonVisualizationPreset : Json → Option VisualizationPreset
  | .obj fields => do
    let id ← (jsonLookup "id" fields).bind Json.asStr
    let name ← (jsonLookup "name" fields).bind Json.asStr
    let visualizationId ← (jsonLookup "visualizationId" fields).bind Json.asStr
    let settings ← jsonLookup "settings" fields
    let enabled ← optField Json.asBool fields "enabled"
    let order ← optField Json.asU32 fields "order"
    let icon ← optField Json.asStr fields "icon"
    pure { id, name, visualizationId, settings, enabled, order, icon }
  | _ => none

/-- serde `Deserialize` for `TextStylePreset` (camelCase; all fields required). -/
def fromJsonTextStylePreset : Json → Option TextStylePreset
  | .obj fields => do
    let id ← (jsonLookup "id" fields).bind Json.asStr
    let name ← (jsonLookup "name" fields).bind Json.asStr
    let textStyleId ← (jsonLookup "textStyleId" fields).bind Json.asStr
    let settings ← jsonLookup "settings" fields
    pure { id, name, textStyleId, settings }
  | _ => none

/-- Element-wise decoding of a JSON array: all-or-nothing, in order. -/
def decodeElems (read : Json → Option α) : List Json → Option (List α)
  | [] => some []
  | x :: xs => do
    let a ← read x
    let rest ← decodeElems read xs
    pure (a :: rest)

/-- `serde_json::from_value::<Vec<T>>`: an array whose every element decodes. -/
def decodeArray (read : Json → Option α) (j : Json) : Option (List α) :=
  (Json.asArr j).bind (decodeElems read)

/-- The three default messages built in `AppStateSync::new`. -/
def defaultMessages : List MessageConfig :=
  [{ id := "msg-1", text := "Countdown initiated...", textFile := none,
     textStyle := "typewriter", textStylePreset := none, styleOverrides := none,
     repeatCount := none, speed := none, splitEnabled := none, splitSeparator := none },
   { id := "msg-2", text := "3, 2, 1", textFile := none,
     textStyle := "bounce", textStylePreset := none, styleOverrides := none,
     repeatCount := none, speed := some 1, splitEnabled := some true,
     splitSeparator := some "," },
   { id := "msg-3", text := "It\u0027s time to party 🥳", textFile := none,
     textStyle := "scrolling-capitals", textStylePreset := some "scrolling-capitals-centered",
     styleOverrides := none, repeatCount := none, speed := none, splitEnabled := none,
     splitSeparator := none }]

/-- First leaf of the default message tree. -/
def defaultTreeNode1 : Json :=
  Json.obj
    [("type", Json.str "message"), ("id", Json.str "msg-1"),
     ("message", Json.obj
       [("id", Json.str "msg-1"), ("text", Json.str "Countdown initiated..."),
        ("textStyle", Json.str "typewriter")])]

/-- Second leaf of the default message tree. -/
def defaultTreeNode2 : Json :=
  Json.obj
    [("type", Json.str "message"), ("id", Json.str "msg-2"),
     ("message", Json.obj
       [("id", Json.str "msg-2"), ("text", Json.str "3, 2, 1"),
        ("textStyle", Json.str "bounce"), ("splitEnabled", Json.bool true),
        ("splitSeparator", Json.str ","), ("speed", Json.num 1)])]

/-- Third leaf of the default message tree. -/
def defaultTreeNode3 : Json :=
  Json.obj
    [("type", Json.str "message"), ("id", Json.str "msg-3"),
     ("message", Json.obj
       [("id", Json.str "msg-3"), ("text", Json.str "It\u0027s time to party 🥳"),
        ("textStyle", Json.str "scrolling-capitals"),
        ("textStylePreset", Json.str "scrolling-capitals-centered")])]

/-- The single folder node of the default message tree. -/
def defaultPartyFolder : Json :=
  Json.obj
    [("type", Json.str "folder"), ("id", Json.str "party-countdown"),
     ("name", Json.str "Party Countdown"),
     ("children", Json.arr [defaultTreeNode1, defaultTreeNode2, defaultTreeNode3])]

/-- The default message tree built in `AppStateSync::new`: one folder
`party-countdown` wrapping the three default messages. -/
def defaultMessageTree : Json :=
  Json.arr [defaultPartyFolder]

/-- The six default visualization presets of `AppStateSync::new`. -/
def defaultVisualizationPresets : List VisualizationPreset :=
  [{ id := "fireplace-default", name := "Fireplace", visualizationId := "fireplace",
     settings := Json.obj
       [("emberCount", Json.num 15), ("flameCount", Json.num 12),
        ("flameHeight", Json.num 1), ("glowColor", Json.str "#ea580c"),
        ("showLogs", Json.bool true)],
     enabled := some true, order := none, icon := none },
   { id := "fireplace-blue-glow", name := "Blue Glow", visualizationId := "fireplace",
     settings := Json.obj
       [("emberCount", Json.num 0), ("flameCount", Json.num 0),
        ("flameHeight", Json.num 0), ("glowColor", Json.str "#1e3a8a"),
        ("showLogs", Json.bool false)],
     enabled := some true, order := none, icon := none },
   { id := "photo-slideshow-default", name := "Photo Slideshow",
     visualizationId := "photo-slideshow",
     settings := Json.obj
       [("sourceType", Json.str "local"), ("folderPath", Json.str ""),
        ("photosAlbumName", Json.str ""), ("displayDuration", Json.num 5),
        ("transitionDuration", Json.num 0.8), ("randomOrder", Json.bool false),
        ("enableFade", Json.bool true), ("enableSlide", Json.bool true),
        ("enableZoom", Json.bool true), ("enable3DRotate", Json.bool true),
        ("enableCube", Json.bool false), ("enableFlip", Json.bool true),
        ("fitMode", Json.str "cover"), ("smartCrop", Json.bool true),
        ("videoSound", Json.bool true), ("videoVolume", Json.num 50)],
     enabled := some true, order := none, icon := none },
   { id := "particles-default", name := "Particles", visualizationId := "particles",
     settings := Json.obj
       [("particleCount", Json.num 80), ("particleSize", Json.num 5),
        ("speed", Json.num 0.5), ("particleColor", Json.str "#f59e0b"),
        ("colorful", Json.bool true), ("spread", Json.num 1.5)],
     enabled := some true, order := none, icon := none },
   { id := "youtube-default", name := "YouTube", visualizationId := "youtube",
     settings := Json.obj
       [("videoUrl", Json.str "https://youtu.be/uNNk-V08J7k?si=0chlR1UB6XYRxPc3"),
        ("showControls", Json.bool false), ("muted", Json.bool true),
        ("volume", Json.num 50)],
     enabled := some true, order := none, icon := none },
   { id := "techno-default", name := "Techno", visualizationId := "techno",
     settings := Json.obj
       [("barCount", Json.num 48), ("sphereScale", Json.num 1),
        ("sphereDistort", Json.num 0.5), ("colorScheme", Json.str "rainbow"),
        ("showSphere", Json.bool false), ("showBars", Json.bool true)],
     enabled := some true, order := none, icon := none }]

/-- The default text-style preset of `AppStateSync::new`. -/
def defaultTextStylePresets : List TextStylePreset :=
  [{ id := "scrolling-capitals-centered", name := "Scrolling Capitals Centered",
     textStyleId := "scrolling-capitals",
     settings := Json.obj
       [("position", Json.str "center"), ("fontSize", Json.num 12),
        ("glowIntensity", Json.num 0.5), ("color", Json.str "#ffffff")] }]

/-- The state built by `AppStateSync::new` at process start. -/
def initialState : AppState :=
  { activeVisualization := "fireplace"
    enabledVisualizations := ["fireplace", "techno"]
    commonSettings := { intensity := 1, dim := 1 }
    visualizationSettings := Json.obj []
    visualizationPresets := defaultVisualizationPresets
    activeVisualizationPreset := some "fireplace-blue-glow"
    messages := defaultMessages
    messageTree := defaultMessageTree
    defaultTextStyle := "scrolling-capitals"
    textStyleSettings := Json.obj []
    textStylePresets := defaultTextStylePresets
    messageStats := Json.obj []
    folderPlaybackQueue := none
    triggeredMessage := none }

/-- The `MessageConfig` literal the dispatcher synthesizes for legacy string
payloads (`trigger-message` with a bare string uses id `"triggered"`;
`set-messages` with a string array uses the element index as id). Both
literals in the source set `text_style: "scrolling-capitals"` and every other
optional field to `None`. -/
def legacyMessage (id text : String) : MessageConfig :=
  { id, text, textFile := none, textStyle := "scrolling-capitals",
    textStylePreset := none, styleOverrides := none, repeatCount := none,
    speed := none, splitEnabled := none, splitSeparator := none }

/-- The stats update of the `trigger-message` arm: read the current entry (or
the zero entry), bump `triggerCount` (a Rust `u64`, hence modulo `2^64`),
append a history timestamp, keep the last 50 entries, and store the new entry
under the message id (replacing the whole stats value when it is not an
object). -/
def updateStats (stats : Json) (id : String) (now : ℕ) : Json :=
  let current := (stats.get id).getD
    (Json.obj [("messageId", Json.str id), ("triggerCount", Json.num 0),
               ("lastTriggered", Json.num 0), ("history", Json.arr [])])
  let triggerCount : ℕ := (((current.get "triggerCount").bind Json.asU64).getD 0 + 1) % 2 ^ 64
  let history := ((current.get "history").bind Json.asArr).getD []
  let history := history ++ [Json.obj [("timestamp", Json.num (now : ℚ))]]
  let history := if history.length > 50 then history.drop (history.length - 50) else history
  let newEntry := Json.obj
    [("messageId", Json.str id), ("triggerCount", Json.num (triggerCount : ℚ)),
     ("lastTriggered", Json.num (now : ℚ)), ("history", Json.arr history)]
  match stats with
  | .obj fields => Json.obj (jsonInsert id newEntry fields)
  | _ => Json.obj [(id, newEntry)]

/-- The `trigger-message` arm: decode the payload as a bare string (legacy) or
a full `MessageConfig`; on success record the triggered message and update the
stats; on failure do nothing. -/
def doTriggerMessage (now : ℕ) (p : Option Json) (s : AppState) :
    AppState × Option MessageConfig :=
  match p with
  | none => (s, none)
  | some pv =>
    let msg? := match pv.asStr with
      | some text => some (legacyMessage "triggered" text)
      | none => fromJsonMessageConfig pv
    match msg? with
    | none => (s, none)
    | some msg => ({ s with messageStats := updateStats s.messageStats msg.id now }, some msg)

/-- The `set-messages` arm: a `Vec<MessageConfig>` payload replaces the list,
else a legacy string array is synthesized into indexed messages; either way
the tree is rebuilt as the flat tree of the new list; any other payload is a
no-op. -/
def doSetMessages (p : Option Json) (s : AppState) : AppState :=
  match p with
  | none => s
  | some pv =>
    match decodeArray fromJsonMessageConfig pv with
    | some msgs =>
      { s with messages := msgs, messageTree := buildFlatMessageTree msgs }
    | none =>
      match pv.asArr with
      | some arr =>
        let msgs := arr.enum.filterMap fun iv =>
          (iv.2.asStr).map fun text => legacyMessage (toString iv.1) text
        { s with messages := msgs, messageTree := buildFlatMessageTree msgs }
      | none => s

/-- The `set-message-tree` arm: store the payload verbatim as the tree and
overwrite the flat list with its flattening. -/
def doSetMessageTree (p : Option Json) (s : AppState) : AppState :=
  match p with
  | none => s
  | some pv => { s with messageTree := pv, messages := flattenMessageTree pv }

/-- The `set-active-visualization-preset` arm: `null` clears the active
preset; a string sets it and, when a preset with that id exists, also makes
its `visualizationId` the active visualization. -/
def doSetActivePreset (p : Option Json) (s : AppState) : AppState :=
  match p with
  | none => s
  | some pv =>
    if pv.isNull then { s with activeVisualizationPreset := none }
    else
      match pv.asStr with
      | some presetId =>
        match s.visualizationPresets.find? (fun pr => pr.id == presetId) with
        | some preset =>
          { s with activeVisualizationPreset := some presetId,
                   activeVisualization := preset.visualizationId }
        | none => { s with activeVisualizationPreset := some presetId }
      | none => s

/-- The guarded queue advance shared (verbatim, up to logging) by the
`clear-active-message` and `message-complete` arms: if a queue exists and the
signalled id is the id at `current_index`, increment the index; when still in
bounds resolve the next message from the flat list and trigger it, otherwise
clear the queue. In every other case nothing changes. -/
def advanceQueue (messageId : String) (s : AppState) : AppState × Option MessageConfig :=
  match s.folderPlaybackQueue with
  | none => (s, none)
  | some q =>
    match q.messageIds.get? q.currentIndex with
    | none => (s, none)
    | some currentId =>
      if currentId = messageId then
        if q.currentIndex + 1 < q.messageIds.length then
          let next := (q.messageIds.get? (q.currentIndex + 1)).bind fun nextId =>
            s.messages.find? (fun m => m.id == nextId)
          ({ s with folderPlaybackQueue := some { q with currentIndex := q.currentIndex + 1 } },
           next)
        else
          ({ s with folderPlaybackQueue := none }, none)
      else (s, none)

/-- Payload handling around the queue advance: both advance arms require a
payload object with a string `messageId`. -/
def advanceSignal (p : Option Json) (s : AppState) : AppState × Option MessageConfig :=
  match p with
  | none => (s, none)
  | some pv =>
    match (pv.get "messageId").bind Json.asStr with
    | none => (s, none)
    | some messageId => advanceQueue messageId s

/-- The `play-folder` arm: collect the folder's message ids from the tree;
when non-empty install a fresh queue at index 0 and trigger the first id's
message when it resolves in the flat list. -/
def doPlayFolder (p : Option Json) (s : AppState) : AppState × Option MessageConfig :=
  match p with
  | none => (s, none)
  | some pv =>
    match (pv.get "folderId").bind Json.asStr with
    | none => (s, none)
    | some folderId =>
      let messageIds := collectMessagesFromFolder folderId s.messageTree
      if messageIds.isEmpty then (s, none)
      else
        match messageIds.head? with
        | none =>
          ({ s with folderPlaybackQueue := some { folderId, messageIds, currentIndex := 0 } },
           none)
        | some firstId =>
          match s.messages.find? (fun m => m.id == firstId) with
          | some msg =>
            ({ s with folderPlaybackQueue := some { folderId, messageIds, currentIndex := 0 } },
             some msg)
          | none =>
            ({ s with folderPlaybackQueue := some { folderId, messageIds, currentIndex := 0 } },
             none)

/-- One field application of `load-configuration`: `activeVisualization`. -/
def applyCfgActiveViz (o : List (String × Json)) (s : AppState) : AppState :=
  match (jsonLookup "activeVisualization" o).bind Json.asStr with
  | some viz => { s with activeVisualization := viz }
  | none => s

/-- One field application of `load-configuration`: `enabledVisualizations`. -/
def applyCfgEnabledVizs (o : List (String × Json)) (s : AppState) : AppState :=
  match (jsonLookup "enabledVisualizations" o).bind Json.asArr with
  | some vizs => { s with enabledVisualizations := vizs.filterMap Json.asStr }
  | none => s

/-- One field application of `load-configuration`: `commonSettings`. -/
def applyCfgCommonSettings (o : List (String × Json)) (s : AppState) : AppState :=
  match (jsonLookup "commonSettings" o).bind fromJsonCommonSettings with
  | some cs => { s with commonSettings := cs }
  | none => s

/-- One field application of `load-configuration`: `visualizationSettings`. -/
def applyCfgVizSettings (o : List (String × Json)) (s : AppState) : AppState :=
  match jsonLookup "visualizationSettings" o with
  | some v => { s with visualizationSettings := v }
  | none => s

/-- One field application of `load-configuration`: `messages` (replaced only
when the whole array decodes as `Vec<MessageConfig>`). -/
def applyCfgMessages (o : List (String × Json)) (s : AppState) : AppState :=
  match jsonLookup "messages" o with
  | some v =>
    match decodeArray fromJsonMessageConfig v with
    | some msgs => { s with messages := msgs }
    | none => s
  | none => s

/-- One field application of `load-configuration`: `messageTree`. A present
tree is stored verbatim and the flat list overwritten with its flattening; an
absent tree is rebuilt as the flat tree of the current messages. -/
def applyCfgMessageTree (o : List (String × Json)) (s : AppState) : AppState :=
  match jsonLookup "messageTree" o with
  | some tree =>
    { s with messageTree := tree, messages := flattenMessageTree tree }
  | none =>
    { s with messageTree := buildFlatMessageTree s.messages }

/-- One field application of `load-configuration`: `defaultTextStyle`. -/
def applyCfgDefaultTextStyle (o : List (String × Json)) (s : AppState) : AppState :=
  match (jsonLookup "defaultTextStyle" o).bind Json.asStr with
  | some style => { s with defaultTextStyle := style }
  | none => s

/-- One field application of `load-configuration`: `textStyleSettings`. -/
def applyCfgTextStyleSettings (o : List (String × Json)) (s : AppState) : AppState :=
  match jsonLookup "textStyleSettings" o with
  | some v => { s with textStyleSettings := v }
  | none => s

/-- One field application of `load-configuration`: `visualizationPresets`. -/
def applyCfgVizPresets (o : List (String × Json)) (s : AppState) : AppState :=
  match (jsonLookup "visualizationPresets" o).bind (decodeArray fromJsonVisualizationPreset) with
  | some presets => { s with visualizationPresets := presets }
  | none => s

/-- One field application of `load-configuration`: `activeVisualizationPreset`
(set only when it is a string; never cleared here). -/
def applyCfgActivePreset (o : List (String × Json)) (s : AppState) : AppState :=
  match (jsonLookup "activeVisualizationPreset" o).bind Json.asStr with
  | some presetId => { s with activeVisualizationPreset := some presetId }
  | none => s

/-- One field application of `load-configuration`: `textStylePresets`. -/
def applyCfgTextStylePresets (o : List (String × Json)) (s : AppState) : AppState :=
  match (jsonLookup "textStylePresets" o).bind (decodeArray fromJsonTextStylePreset) with
  | some presets => { s with textStylePresets := presets }
  | none => s

/-- One field application of `load-configuration`: `messageStats` (verbatim). -/
def applyCfgMessageStats (o : List (String × Json)) (s : AppState) : AppState :=
  match jsonLookup "messageStats" o with
  | some v => { s with messageStats := v }
  | none => s

/-- The field-by-field configuration application shared by the
`load-configuration` command arm and `AppStateSync::load_config_from_file`
(the two sites are textually identical up to the inlined flat-tree builder),
in source order. -/
def applyConfigObject (o : List (String × Json)) (s : AppState) : AppState :=
  applyCfgMessageStats o
    (applyCfgTextStylePresets o
      (applyCfgActivePreset o
        (applyCfgVizPresets o
          (applyCfgTextStyleSettings o
            (applyCfgDefaultTextStyle o
              (applyCfgMessageTree o
                (applyCfgMessages o
                  (applyCfgVizSettings o
                    (applyCfgCommonSettings o
                      (applyCfgEnabledVizs o
                        (applyCfgActiveViz o s)))))))))))

/-- `load-configuration` on a payload: only an object payload is applied. -/
def applyConfig (j : Json) (s : AppState) : AppState :=
  match j.asObj with
  | some o => applyConfigObject o s
  | none => s

/-- The command match of `handle_command` in `crates/server/src/lib.rs`:
mutations plus the produced triggered message, before the final broadcast. -/
def dispatch (now : ℕ) (c : RemoteCommand) (s : AppState) :
    AppState × Option MessageConfig :=
  match c.command with
  | "set-mode" =>
    match c.payload.bind Json.asStr with
    | some mode => ({ s with activeVisualization := mode }, none)
    | none => (s, none)
  | "set-active-visualization" =>
    match c.payload.bind Json.asStr with
    | some viz => ({ s with activeVisualization := viz }, none)
    | none => (s, none)
  | "set-enabled-visualizations" =>
    match c.payload.bind Json.asArr with
    | some vizs => ({ s with enabledVisualizations := vizs.filterMap Json.asStr }, none)
    | none => (s, none)
  | "set-common-settings" =>
    match c.payload.bind fromJsonCommonSettings with
    | some settings => ({ s with commonSettings := settings }, none)
    | none => (s, none)
  | "set-visualization-settings" =>
    match c.payload with
    | some p => ({ s with visualizationSettings := p }, none)
    | none => (s, none)
  | "trigger-message" => doTriggerMessage now c.payload s
  | "set-messages" => (doSetMessages c.payload s, none)
  | "set-message-tree" => (doSetMessageTree c.payload s, none)
  | "set-default-text-style" =>
    match c.payload.bind Json.asStr with
    | some style => ({ s with defaultTextStyle := style }, none)
    | none => (s, none)
  | "set-text-style-settings" =>
    match c.payload with
    | some p => ({ s with textStyleSettings := p }, none)
    | none => (s, none)
  | "set-visualization-presets" =>
    match c.payload.bind (decodeArray fromJsonVisualizationPreset) with
    | some presets => ({ s with visualizationPresets := presets }, none)
    | none => (s, none)
  | "set-active-visualization-preset" => (doSetActivePreset c.payload s, none)
  | "set-text-style-presets" =>
    match c.payload.bind (decodeArray fromJsonTextStylePreset) with
    | some presets => ({ s with textStylePresets := presets }, none)
    | none => (s, none)
  | "clear-active-message" => advanceSignal c.payload s
  | "message-complete" => advanceSignal c.payload s
  | "play-folder" => doPlayFolder c.payload s
  | "cancel-folder-playback" => ({ s with folderPlaybackQueue := none }, none)
  | "reset-message-stats" => ({ s with messageStats := Json.obj [] }, none)
  | "load-configuration" =>
    match c.payload with
    | some p => (applyConfig p s, none)
    | none => (s, none)
  | _ => (s, none)

/-- `AppStateSync::broadcast`: store the produced triggered message (always —
also when it is `None`) and publish a fresh snapshot. Its effect on the
canonical state is the overwrite of `triggered_message`. -/
def broadcastStore (triggered : Option MessageConfig) (s : AppState) : AppState :=
  { s with triggeredMessage := triggered }

/-- One full `handle_command` call: run the command match, then
`broadcast(triggered_message)` which overwrites the stored triggered message
with the produced one. -/
def handleCommand (now : ℕ) (c : RemoteCommand) (s : AppState) : AppState :=
  broadcastStore (dispatch now c s).2 (dispatch now c s).1

/-- The HTTP response of `handle_command`: unconditionally `{"status": "ok"}`. -/
def handleCommandResponse (now : ℕ) (c : RemoteCommand) (s : AppState) : Json :=
  Json.obj [("status", Json.str "ok")]

/-- `AppStateSync::load_config_from_file` after the file has been read and
parsed to `config`: apply the configuration object field by field, then
`broadcast(None)` (which clears the stored triggered message). -/
def loadConfigFromFile (config : Json) (s : AppState) : AppState :=
  broadcastStore none (applyConfig config s)

/-- States the canonical store can reach: the initial defaults, followed by
any interleaving of dispatched commands and configuration-file loads. -/
inductive Reachable : AppState → Prop where
  | init : Reachable initialState
  | step {s : AppState} (now : ℕ) (c : RemoteCommand) :
      Reachable s → Reachable (handleCommand now c s)
  | load {s : AppState} (config : Json) :
      Reachable s → Reachable (loadConfigFromFile config s)

/-- One event on the SSE wire produced by `state_events`: a `state` event
carrying a full-state broadcast, or a `command` event carrying a raw
command. -/
inductive SseEvent where
  | state (b : BroadcastState)
  | command (c : RemoteCommand)

/-- The `state_stream` side of the live feed: each full-state broadcast
published on `state_tx` after the subscription becomes one `state` event, in
publication order. -/
def stateFeed (bs : List BroadcastState) : List SseEvent :=
  bs.map SseEvent.state

/-- The `command_stream` side of the live feed: each raw command published
on `command_tx` after the subscription becomes one `command` event, in
publication order. -/
def commandFeed (cs : List RemoteCommand) : List SseEvent :=
  cs.map SseEvent.command

/-- `futures::stream::select` interleaves its two input streams in an order
that preserves each side's internal order; `Merge xs ys zs` says `zs` is
such an interleaving of `xs` and `ys`. -/
inductive Merge : List SseEvent → List SseEvent → List SseEvent → Prop where
  | nil : Merge [] [] []
  | left {xs ys zs : List SseEvent} (e : SseEvent) :
      Merge xs ys zs → Merge (e :: xs) ys (e :: zs)
  | right {xs ys zs : List SseEvent} (e : SseEvent) :
      Merge xs ys zs → Merge xs (e :: ys) (e :: zs)

/-- The event sequence one subscriber observes: `state_events` subscribes to
both broadcast channels, takes the snapshot `get_state()`, and returns
`initial_event.chain(select(state_stream, command_stream))` — one synthetic
`state` event holding the snapshot, then the merged live feed. -/
def subscriberStream (s : AppState) (live : List SseEvent) : List SseEvent :=
  SseEvent.state (getState s) :: live

/-- The projection-consistency invariant: the flat list always equals the
flattening of the tree. -/
def MsgInv (s : AppState) : Prop :=
  s.messages = flattenMessageTree s.messageTree

/-- The guard under which an advance signal has any effect: a payload object
resolving a string `messageId` that equals the id at the queue's current
index. -/
def advanceGuard (p : Option Json) (s : AppState) : Prop :=
  ∃ pv q mid, p = some pv ∧ (pv.get "messageId").bind Json.asStr = some mid ∧
    s.folderPlaybackQueue = some q ∧ q.messageIds.get? q.currentIndex = some mid

/-- The commands the dispatcher recognizes (the named arms of the match in
`handle_command`). -/
def knownCommands : List String :=
  ["set-mode", "set-active-visualization", "set-enabled-visualizations",
   "set-common-settings", "set-visualization-settings", "trigger-message",
   "set-messages", "set-message-tree", "set-default-text-style",
   "set-text-style-settings", "set-visualization-presets",
   "set-active-visualization-preset", "set-text-style-presets",
   "clear-active-message", "message-complete", "play-folder",
   "cancel-folder-playback", "reset-message-stats", "load-configuration"]

/-- The history entry `{"timestamp": t}` pushed on each trigger. -/
def mkTimestampEntry (t : ℕ) : Json :=
  Json.obj [("timestamp", Json.num (t : ℚ))]

/-- The shape of a stats entry as written by the `trigger-message` arm. -/
def mkStatEntry (id : String) (count last : ℕ) (hist : List Json) : Json :=
  Json.obj [("messageId", Json.str id), ("triggerCount", Json.num (count : ℚ)),
            ("lastTriggered", Json.num (last : ℚ)), ("history", Json.arr hist)]

/-- `n` consecutive `trigger-message` commands for the same message, one per
timestamp in `ts`. -/
def iterTrigger (msg : MessageConfig) : List ℕ → AppState → AppState
  | [], s => s
  | t :: ts, s =>
    iterTrigger msg ts (handleCommand t ⟨"trigger-message", some (toJsonMessageConfig msg)⟩ s)

/-- Observation: the `triggerCount` stored for `id` (read the way the code
reads it back, via `as_u64`). -/
def statTriggerCount (stats : Json) (id : String) : Option ℕ :=
  (stats.get id).bind fun e => (e.get "triggerCount").bind Json.asU64

/-- Observation: the `history` array stored for `id`. -/
def statHistory (stats : Json) (id : String) : Option (List Json) :=
  (stats.get id).bind fun e => (e.get "history").bind Json.asArr

theorem handleCommand_eq (now : ℕ) (c : RemoteCommand) (s : AppState) :
    handleCommand now c s = broadcastStore (dispatch now c s).2 (dispatch now c s).1 := rfl

theorem Json.isNull_eq_false {j : Json} (h : j ≠ Json.null) : j.isNull = false := by
  cases j
  case null => exact absurd rfl h
  all_goals rfl

theorem Json.ne_null_of_isNull_eq_false {j : Json} (h : j.isNull = false) : j ≠ Json.null := by
  cases j <;> simp_all [Json.isNull]

theorem Json.asU32_lt {v : Json} {k : ℕ} (h : Json.asU32 v = some k) : k < 2 ^ 32 := by
  cases v <;> simp only [Json.asU32] at h
  case num q =>
    split at h
    · cases h
      omega
    · cases h
  all_goals cases h

theorem Json.asU32_natCast {k : ℕ} (h : k < 2 ^ 32) :
    Json.asU32 (Json.num (k : ℚ)) = some k := by
  have h3 : (k : ℤ) < 2 ^ 32 := by exact_mod_cast h
  simp [Json.asU32, Rat.num_natCast, Rat.den_natCast, h3]
  exact h

theorem Json.asU64_natCast {k : ℕ} (h : k < 2 ^ 64) :
    Json.asU64 (Json.num (k : ℚ)) = some k := by
  have h3 : (k : ℤ) < 2 ^ 64 := by exact_mod_cast h
  simp [Json.asU64, Rat.num_natCast, Rat.den_natCast, h3]
  exact h

theorem jsonLookup_append (key : String) (l1 l2 : List (String × Json)) :
    jsonLookup key (l1 ++ l2) = (jsonLookup key l1).or (jsonLookup key l2) := by
  induction l1 with
  | nil => simp [jsonLookup]
  | cons kv rest ih =>
    obtain ⟨k, v⟩ := kv
    by_cases hk : k = key <;> simp [jsonLookup, hk, ih]

theorem jsonLookup_optEntry_ne {name key : String} (h : ¬name = key) (v : Option Json) :
    jsonLookup key (optEntry name v) = none := by
  cases v <;> simp [optEntry, jsonLookup, h]

theorem jsonLookup_optEntry_eq (key : String) (v : Option Json) :
    jsonLookup key (optEntry key v) = v := by
  cases v <;> simp [optEntry, jsonLookup]

theorem toJsonFields_id (m : MessageConfig) :
    jsonLookup "id" (toJsonFields m) = some (Json.str m.id) := by
  simp [toJsonFields, jsonLookup_append, jsonLookup]

theorem toJsonFields_text (m : MessageConfig) :
    jsonLookup "text" (toJsonFields m) = some (Json.str m.text) := by
  simp [toJsonFields, jsonLookup_append, jsonLookup]

theorem toJsonFields_textStyle (m : MessageConfig) :
    jsonLookup "textStyle" (toJsonFields m) = some (Json.str m.textStyle) := by
  simp [toJsonFields, jsonLookup_append, jsonLookup, jsonLookup_optEntry_ne]

theorem toJsonFields_textFile (m : MessageConfig) :
    jsonLookup "textFile" (toJsonFields m) = m.textFile.map Json.str := by
  simp [toJsonFields, jsonLookup_append, jsonLookup, jsonLookup_optEntry_ne,
        jsonLookup_optEntry_eq]

theorem toJsonFields_textStylePreset (m : MessageConfig) :
    jsonLookup "textStylePreset" (toJsonFields m) = m.textStylePreset.map Json.str := by
  simp [toJsonFields, jsonLookup_append, jsonLookup, jsonLookup_optEntry_ne,
        jsonLookup_optEntry_eq]

theorem toJsonFields_styleOverrides (m : MessageConfig) :
    jsonLookup "styleOverrides" (toJsonFields m) = m.styleOverrides := by
  simp [toJsonFields, jsonLookup_append, jsonLookup, jsonLookup_optEntry_ne,
        jsonLookup_optEntry_eq]

theorem toJsonFields_repeatCount (m : MessageConfig) :
    jsonLookup "repeatCount" (toJsonFields m)
      = m.repeatCount.map fun k => Json.num (k : ℚ) := by
  simp [toJsonFields, jsonLookup_append, jsonLookup, jsonLookup_optEntry_ne,
        jsonLookup_optEntry_eq]

theorem toJsonFields_speed (m : MessageConfig) :
    jsonLookup "speed" (toJsonFields m) = m.speed.map Json.num := by
  simp [toJsonFields, jsonLookup_append, jsonLookup, jsonLookup_optEntry_ne,
        jsonLookup_optEntry_eq]

theorem toJsonFields_splitEnabled (m : MessageConfig) :
    jsonLookup "splitEnabled" (toJsonFields m) = m.splitEnabled.map Json.bool := by
  simp [toJsonFields, jsonLookup_append, jsonLookup, jsonLookup_optEntry_ne,
        jsonLookup_optEntry_eq]

theorem toJsonFields_splitSeparator (m : MessageConfig) :
    jsonLookup "splitSeparator" (toJsonFields m) = m.splitSeparator.map Json.str := by
  simp [toJsonFields, jsonLookup_append, jsonLookup, jsonLookup_optEntry_ne,
        jsonLookup_optEntry_eq]

theorem optField_toJson_strField {m : MessageConfig} {key : String} {v : Option String}
    (hl : jsonLookup key (toJsonFields m) = v.map Json.str) :
    optField Json.asStr (toJsonFields m) key = some v := by
  cases v <;> simp [optField, hl, Json.isNull, Json.asStr]

theorem optField_toJson_styleOverrides {m : MessageConfig}
    (h : ∀ v ∈ m.styleOverrides, v ≠ Json.null) :
    optField some (toJsonFields m) "styleOverrides" = some m.styleOverrides := by
  rw [optField, toJsonFields_styleOverrides]
  cases hso : m.styleOverrides with
  | none => rfl
  | some v =>
    have := h v (by simp [hso])
    simp [Json.isNull_eq_false this]

theorem optField_toJson_repeatCount {m : MessageConfig}
    (h : ∀ k ∈ m.repeatCount, k < 2 ^ 32) :
    optField Json.asU32 (toJsonFields m) "repeatCount" = some m.repeatCount := by
  rw [optField, toJsonFields_repeatCount]
  cases hrc : m.repeatCount with
  | none => rfl
  | some k =>
    have := h k (by simp [hrc])
    simp [Json.isNull, Json.asU32_natCast this]

theorem optField_toJson_speed (m : MessageConfig) :
    optField Json.asNum (toJsonFields m) "speed" = some m.speed := by
  rw [optField, toJsonFields_speed]
  cases m.speed <;> simp [Json.isNull, Json.asNum]

theorem optField_toJson_splitEnabled (m : MessageConfig) :
    optField Json.asBool (toJsonFields m) "splitEnabled" = some m.splitEnabled := by
  rw [optField, toJsonFields_splitEnabled]
  cases m.splitEnabled <;> simp [Json.isNull, Json.asBool]

theorem optField_some_inv {read : Json → Option α} {fields : List (String × Json)}
    {key : String} {a : α} (h : optField read fields key = some (some a)) :
    ∃ v, jsonLookup key fields = some v ∧ v.isNull = false ∧ read v = some a := by
  unfold optField at h
  split at h
  · simp at h
  case _ v hv =>
    split at h
    · simp at h
    · refine ⟨v, hv, by simp_all, ?_⟩
      cases hr : read v <;> simp [hr] at h
      simp [h]

/-- Every successfully decoded `MessageConfig` is representable. -/
theorem wf_of_fromJson {j : Json} {m : MessageConfig}
    (h : fromJsonMessageConfig j = some m) : m.wf := by
  cases j <;> simp only [fromJsonMessageConfig] at h <;> try cases h
  case obj fields =>
    simp only [bind, Option.bind_eq_some, Option.pure_def, Option.some.injEq] at h
    obtain ⟨id, hid, text, htext, tf, htf, ts, hts, tsp, htsp, so, hso, rc, hrc,
            sp, hsp, se, hse, ss, hss, hm⟩ := h
    subst hm
    constructor
    · intro k hk
      cases rc with
      | none => cases hk
      | some k0 =>
        obtain ⟨v, _, _, hread⟩ := optField_some_inv hrc
        cases hk
        exact Json.asU32_lt hread
    · intro v hv
      cases so with
      | none => cases hv
      | some v0 =>
        obtain ⟨w, _, hwn, hread⟩ := optField_some_inv hso
        cases hv
        cases hread
        exact Json.ne_null_of_isNull_eq_false hwn

/-- The serde round trip on `MessageConfig`: serializing and re-deserializing
a representable message is the identity. -/
theorem fromJson_toJson {m : MessageConfig} (h : m.wf) :
    fromJsonMessageConfig (toJsonMessageConfig m) = some m := by
  obtain ⟨hrc, hso⟩ := h
  simp only [toJsonMessageConfig, fromJsonMessageConfig, toJsonFields_id, toJsonFields_text,
             toJsonFields_textStyle, optField_toJson_strField (toJsonFields_textFile m),
             optField_toJson_strField (toJsonFields_textStylePreset m),
             optField_toJson_strField (toJsonFields_splitSeparator m),
             optField_toJson_styleOverrides hso, optField_toJson_repeatCount hrc,
             optField_toJson_speed, optField_toJson_splitEnabled, Json.asStr,
             Option.bind]
  rfl

mutual

theorem flattenWalk_wf : ∀ (j : Json) (m : MessageConfig), m ∈ flattenWalk j → m.wf
  | .null, m => by simp [flattenWalk]
  | .bool b, m => by simp [flattenWalk]
  | .num q, m => by simp [flattenWalk]
  | .str s, m => by simp [flattenWalk]
  | .arr xs, m => by
    rw [flattenWalk]
    exact flattenWalkList_wf xs m
  | .obj fields, m => by
    rw [flattenWalk]
    split
    case _ t _ =>
      split
      · split
        · intro hm
          rw [Option.mem_toList, Option.mem_def] at hm
          exact wf_of_fromJson hm
        · simp
      · split
        · split
          case _ children h =>
            exact flattenWalk_wf children m
          · simp
        · simp
    · simp
termination_by j => sizeOf j
decreasing_by
  · simp only [Json.arr.sizeOf_spec]; omega
  · rename_i hlook
    have := sizeOf_jsonLookup hlook
    simp only [Json.obj.sizeOf_spec]
    omega

theorem flattenWalkList_wf : ∀ (xs : List Json) (m : MessageConfig),
    m ∈ flattenWalkList xs → m.wf
  | [], m => by simp [flattenWalkList]
  | x :: xs, m => by
    rw [flattenWalkList]
    intro hm
    rcases List.mem_append.mp hm with h | h
    · exact flattenWalk_wf x m h
    · exact flattenWalkList_wf xs m h
termination_by xs => sizeOf xs
decreasing_by
  · simp only [List.cons.sizeOf_spec]; omega
  · simp only [List.cons.sizeOf_spec]; omega

end

/-- Every message produced by flattening a tree is representable. -/
theorem mem_flattenMessageTree_wf {tree : Json} {m : MessageConfig}
    (h : m ∈ flattenMessageTree tree) : m.wf :=
  flattenWalk_wf tree m h

theorem flattenWalk_messageNode (m : MessageConfig) :
    flattenWalk (Json.obj [("type", Json.str "message"), ("id", Json.str m.id),
      ("message", toJsonMessageConfig m)])
      = (fromJsonMessageConfig (toJsonMessageConfig m)).toList := by
  rw [flattenWalk]
  simp [jsonLookup]

/-- Flattening the flat tree of a list of representable messages gives back
the list. -/
theorem flatten_build {l : List MessageConfig} (h : ∀ m ∈ l, m.wf) :
    flattenMessageTree (buildFlatMessageTree l) = l := by
  induction l with
  | nil =>
    rw [flattenMessageTree, buildFlatMessageTree]
    simp [flattenWalk, flattenWalkList]
  | cons m rest ih =>
    have hm := h m (by simp)
    have hrest : ∀ m0 ∈ rest, m0.wf := fun m0 hm0 => h m0 (by simp [hm0])
    rw [flattenMessageTree, buildFlatMessageTree] at ih ⊢
    simp only [List.map_cons]
    rw [flattenWalk, flattenWalkList, flattenWalk_messageNode, fromJson_toJson hm]
    rw [flattenWalk] at ih
    rw [ih hrest]
    rfl

/-- C6: for every message tree `T`,
`flatten(buildFlatTree(flatten(T)))` yields the same message list (same
messages, same order) as `flatten(T)`. -/
theorem c6_flatten_build_flatten (t : Json) :
    flattenMessageTree (buildFlatMessageTree (flattenMessageTree t)) = flattenMessageTree t :=
  flatten_build fun _ hm => mem_flattenMessageTree_wf hm

theorem decodeElems_wf {xs : List Json} {l : List MessageConfig}
    (h : decodeElems fromJsonMessageConfig xs = some l) : ∀ m ∈ l, m.wf := by
  induction xs generalizing l with
  | nil =>
    simp only [decodeElems, Option.some.injEq] at h
    subst h
    simp
  | cons x xs ih =>
    simp only [decodeElems, bind, Option.bind_eq_some, Option.pure_def,
               Option.some.injEq] at h
    obtain ⟨a, ha, rest, hrest, hl⟩ := h
    subst hl
    intro m hm
    rcases List.mem_cons.mp hm with hm | hm
    · subst hm
      exact wf_of_fromJson ha
    · exact ih hrest m hm

theorem decodeArray_wf {j : Json} {l : List MessageConfig}
    (h : decodeArray fromJsonMessageConfig j = some l) : ∀ m ∈ l, m.wf := by
  cases j <;> simp only [decodeArray, Json.asArr, Option.bind] at h <;> try cases h
  case arr xs => exact decodeElems_wf h

theorem legacyMessage_wf (id text : String) : (legacyMessage id text).wf := by
  constructor <;> simp [legacyMessage]

theorem doTriggerMessage_frame (now : ℕ) (p : Option Json) (s : AppState) :
    (doTriggerMessage now p s).1.messages = s.messages ∧
    (doTriggerMessage now p s).1.messageTree = s.messageTree ∧
    (doTriggerMessage now p s).1.folderPlaybackQueue = s.folderPlaybackQueue := by
  unfold doTriggerMessage
  dsimp only
  repeat' split
  all_goals exact ⟨rfl, rfl, rfl⟩

theorem doSetActivePreset_frame (p : Option Json) (s : AppState) :
    (doSetActivePreset p s).messages = s.messages ∧
    (doSetActivePreset p s).messageTree = s.messageTree ∧
    (doSetActivePreset p s).folderPlaybackQueue = s.folderPlaybackQueue := by
  unfold doSetActivePreset
  try dsimp only
  repeat' split
  all_goals exact ⟨rfl, rfl, rfl⟩

theorem advanceQueue_frame (mid : String) (s : AppState) :
    (advanceQueue mid s).1.messages = s.messages ∧
    (advanceQueue mid s).1.messageTree = s.messageTree ∧
    (advanceQueue mid s).1.messageStats = s.messageStats ∧
    (advanceQueue mid s).1.triggeredMessage = s.triggeredMessage := by
  unfold advanceQueue
  repeat' split
  all_goals exact ⟨rfl, rfl, rfl, rfl⟩

theorem advanceSignal_frame (p : Option Json) (s : AppState) :
    (advanceSignal p s).1.messages = s.messages ∧
    (advanceSignal p s).1.messageTree = s.messageTree := by
  unfold advanceSignal
  repeat' split
  · exact ⟨rfl, rfl⟩
  · exact ⟨rfl, rfl⟩
  · exact ⟨(advanceQueue_frame _ s).1, (advanceQueue_frame _ s).2.1⟩

theorem doPlayFolder_frame (p : Option Json) (s : AppState) :
    (doPlayFolder p s).1.messages = s.messages ∧
    (doPlayFolder p s).1.messageTree = s.messageTree := by
  unfold doPlayFolder
  dsimp only
  repeat' split
  all_goals exact ⟨rfl, rfl⟩

theorem doSetMessages_inv (p : Option Json) {s : AppState} (h : MsgInv s) :
    MsgInv (doSetMessages p s) := by
  unfold doSetMessages
  repeat' split
  · exact h
  case _ msgs hdec =>
    show msgs = flattenMessageTree (buildFlatMessageTree msgs)
    exact (flatten_build (decodeArray_wf hdec)).symm
  case _ arr _ =>
    show _ = flattenMessageTree (buildFlatMessageTree _)
    refine (flatten_build ?_).symm
    intro m hm
    obtain ⟨iv, _, hmk⟩ := List.mem_filterMap.mp hm
    obtain ⟨t, _, hmk⟩ := Option.map_eq_some'.mp hmk
    subst hmk
    exact legacyMessage_wf _ _
  · exact h

theorem doSetMessageTree_inv (p : Option Json) {s : AppState} (h : MsgInv s) :
    MsgInv (doSetMessageTree p s) := by
  unfold doSetMessageTree
  split
  · exact h
  · exact rfl

theorem MsgInv.of_frame {s t : AppState} (h : MsgInv s) (h1 : t.messages = s.messages)
    (h2 : t.messageTree = s.messageTree) : MsgInv t := by
  unfold MsgInv at *
  rw [h1, h2]
  exact h

theorem applyCfgActiveViz_frame (o : List (String × Json)) (s : AppState) :
    (applyCfgActiveViz o s).messages = s.messages ∧
    (applyCfgActiveViz o s).messageTree = s.messageTree ∧
    (applyCfgActiveViz o s).folderPlaybackQueue = s.folderPlaybackQueue := by
  unfold applyCfgActiveViz
  split
  all_goals exact ⟨rfl, rfl, rfl⟩

theorem applyCfgEnabledVizs_frame (o : List (String × Json)) (s : AppState) :
    (applyCfgEnabledVizs o s).messages = s.messages ∧
    (applyCfgEnabledVizs o s).messageTree = s.messageTree ∧
    (applyCfgEnabledVizs o s).folderPlaybackQueue = s.folderPlaybackQueue := by
  unfold applyCfgEnabledVizs
  split
  all_goals exact ⟨rfl, rfl, rfl⟩

theorem applyCfgCommonSettings_frame (o : List (String × Json)) (s : AppState) :
    (applyCfgCommonSettings o s).messages = s.messages ∧
    (applyCfgCommonSettings o s).messageTree = s.messageTree ∧
    (applyCfgCommonSettings o s).folderPlaybackQueue = s.folderPlaybackQueue := by
  unfold applyCfgCommonSettings
  split
  all_goals exact ⟨rfl, rfl, rfl⟩

theorem applyCfgVizSettings_frame (o : List (String × Json)) (s : AppState) :
    (applyCfgVizSettings o s).messages = s.messages ∧
    (applyCfgVizSettings o s).messageTree = s.messageTree ∧
    (applyCfgVizSettings o s).folderPlaybackQueue = s.folderPlaybackQueue := by
  unfold applyCfgVizSettings
  split
  all_goals exact ⟨rfl, rfl, rfl⟩

theorem applyCfgDefaultTextStyle_frame (o : List (String × Json)) (s : AppState) :
    (applyCfgDefaultTextStyle o s).messages = s.messages ∧
    (applyCfgDefaultTextStyle o s).messageTree = s.messageTree ∧
    (applyCfgDefaultTextStyle o s).folderPlaybackQueue = s.folderPlaybackQueue := by
  unfold applyCfgDefaultTextStyle
  split
  all_goals exact ⟨rfl, rfl, rfl⟩

theorem applyCfgTextStyleSettings_frame (o : List (String × Json)) (s : AppState) :
    (applyCfgTextStyleSettings o s).messages = s.messages ∧
    (applyCfgTextStyleSettings o s).messageTree = s.messageTree ∧
    (applyCfgTextStyleSettings o s).folderPlaybackQueue = s.folderPlaybackQueue := by
  unfold applyCfgTextStyleSettings
  split
  all_goals exact ⟨rfl, rfl, rfl⟩

theorem applyCfgVizPresets_frame (o : List (String × Json)) (s : AppState) :
    (applyCfgVizPresets o s).messages = s.messages ∧
    (applyCfgVizPresets o s).messageTree = s.messageTree ∧
    (applyCfgVizPresets o s).folderPlaybackQueue = s.folderPlaybackQueue := by
  unfold applyCfgVizPresets
  split
  all_goals exact ⟨rfl, rfl, rfl⟩

theorem applyCfgActivePreset_frame (o : List (String × Json)) (s : AppState) :
    (applyCfgActivePreset o s).messages = s.messages ∧
    (applyCfgActivePreset o s).messageTree = s.messageTree ∧
    (applyCfgActivePreset o s).folderPlaybackQueue = s.folderPlaybackQueue := by
  unfold applyCfgActivePreset
  split
  all_goals exact ⟨rfl, rfl, rfl⟩

theorem applyCfgTextStylePresets_frame (o : List (String × Json)) (s : AppState) :
    (applyCfgTextStylePresets o s).messages = s.messages ∧
    (applyCfgTextStylePresets o s).messageTree = s.messageTree ∧
    (applyCfgTextStylePresets o s).folderPlaybackQueue = s.folderPlaybackQueue := by
  unfold applyCfgTextStylePresets
  split
  all_goals exact ⟨rfl, rfl, rfl⟩

theorem applyCfgMessageStats_frame (o : List (String × Json)) (s : AppState) :
    (applyCfgMessageStats o s).messages = s.messages ∧
    (applyCfgMessageStats o s).messageTree = s.messageTree ∧
    (applyCfgMessageStats o s).folderPlaybackQueue = s.folderPlaybackQueue := by
  unfold applyCfgMessageStats
  split
  all_goals exact ⟨rfl, rfl, rfl⟩

theorem applyCfgMessages_spec (o : List (String × Json)) (s : AppState) :
    (applyCfgMessages o s).messageTree = s.messageTree ∧
    (applyCfgMessages o s).folderPlaybackQueue = s.folderPlaybackQueue ∧
    ((applyCfgMessages o s).messages = s.messages ∨
      ∀ m ∈ (applyCfgMessages o s).messages, m.wf) := by
  unfold applyCfgMessages
  repeat' split
  all_goals
    first
      | exact ⟨rfl, rfl, Or.inl rfl⟩
      | (rename_i msgs hdec
         exact ⟨rfl, rfl, Or.inr (decodeArray_wf hdec)⟩)

theorem applyCfgMessageTree_inv (o : List (String × Json)) {s : AppState}
    (hwf : ∀ m ∈ s.messages, m.wf) : MsgInv (applyCfgMessageTree o s) := by
  unfold applyCfgMessageTree
  split
  · exact rfl
  · exact (flatten_build hwf).symm

theorem applyConfigObject_inv (o : List (String × Json)) {s : AppState} (h : MsgInv s) :
    MsgInv (applyConfigObject o s) := by
  have i1 : MsgInv (applyCfgActiveViz o s) :=
    MsgInv.of_frame h (applyCfgActiveViz_frame o s).1 (applyCfgActiveViz_frame o s).2.1
  have i2 : MsgInv (applyCfgEnabledVizs o (applyCfgActiveViz o s)) :=
    MsgInv.of_frame i1 (applyCfgEnabledVizs_frame o _).1 (applyCfgEnabledVizs_frame o _).2.1
  have i3 : MsgInv (applyCfgCommonSettings o
      (applyCfgEnabledVizs o (applyCfgActiveViz o s))) :=
    MsgInv.of_frame i2 (applyCfgCommonSettings_frame o _).1
      (applyCfgCommonSettings_frame o _).2.1
  have i4 : MsgInv (applyCfgVizSettings o (applyCfgCommonSettings o
      (applyCfgEnabledVizs o (applyCfgActiveViz o s)))) :=
    MsgInv.of_frame i3 (applyCfgVizSettings_frame o _).1 (applyCfgVizSettings_frame o _).2.1
  have hwf5 : ∀ m ∈ (applyCfgMessages o (applyCfgVizSettings o (applyCfgCommonSettings o
      (applyCfgEnabledVizs o (applyCfgActiveViz o s))))).messages, m.wf := by
    rcases (applyCfgMessages_spec o _).2.2 with heq | hwf
    · rw [heq, i4]
      intro m hm
      exact mem_flattenMessageTree_wf hm
    · exact hwf
  have i6 : MsgInv (applyCfgMessageTree o (applyCfgMessages o (applyCfgVizSettings o
      (applyCfgCommonSettings o (applyCfgEnabledVizs o (applyCfgActiveViz o s)))))) :=
    applyCfgMessageTree_inv o hwf5
  have i7 : MsgInv (applyCfgDefaultTextStyle o (applyCfgMessageTree o (applyCfgMessages o
      (applyCfgVizSettings o (applyCfgCommonSettings o
        (applyCfgEnabledVizs o (applyCfgActiveViz o s))))))) :=
    MsgInv.of_frame i6 (applyCfgDefaultTextStyle_frame o _).1
      (applyCfgDefaultTextStyle_frame o _).2.1
  have i8 : MsgInv (applyCfgTextStyleSettings o (applyCfgDefaultTextStyle o
      (applyCfgMessageTree o (applyCfgMessages o (applyCfgVizSettings o
        (applyCfgCommonSettings o (applyCfgEnabledVizs o (applyCfgActiveViz o s)))))))) :=
    MsgInv.of_frame i7 (applyCfgTextStyleSettings_frame o _).1
      (applyCfgTextStyleSettings_frame o _).2.1
  have i9 : MsgInv (applyCfgVizPresets o (applyCfgTextStyleSettings o
      (applyCfgDefaultTextStyle o (applyCfgMessageTree o (applyCfgMessages o
        (applyCfgVizSettings o (applyCfgCommonSettings o
          (applyCfgEnabledVizs o (applyCfgActiveViz o s))))))))) :=
    MsgInv.of_frame i8 (applyCfgVizPresets_frame o _).1 (applyCfgVizPresets_frame o _).2.1
  have i10 : MsgInv (applyCfgActivePreset o (applyCfgVizPresets o
      (applyCfgTextStyleSettings o (applyCfgDefaultTextStyle o (applyCfgMessageTree o
        (applyCfgMessages o (applyCfgVizSettings o (applyCfgCommonSettings o
          (applyCfgEnabledVizs o (applyCfgActiveViz o s)))))))))) :=
    MsgInv.of_frame i9 (applyCfgActivePreset_frame o _).1
      (applyCfgActivePreset_frame o _).2.1
  have i11 : MsgInv (applyCfgTextStylePresets o (applyCfgActivePreset o
      (applyCfgVizPresets o (applyCfgTextStyleSettings o (applyCfgDefaultTextStyle o
        (applyCfgMessageTree o (applyCfgMessages o (applyCfgVizSettings o
          (applyCfgCommonSettings o (applyCfgEnabledVizs o
            (applyCfgActiveViz o s))))))))))) :=
    MsgInv.of_frame i10 (applyCfgTextStylePresets_frame o _).1
      (applyCfgTextStylePresets_frame o _).2.1
  exact MsgInv.of_frame i11 (applyCfgMessageStats_frame o _).1
    (applyCfgMessageStats_frame o _).2.1

theorem applyConfig_inv (j : Json) {s : AppState} (h : MsgInv s) :
    MsgInv (applyConfig j s) := by
  unfold applyConfig
  split
  · exact applyConfigObject_inv _ h
  · exact h

/-- Projection-consistency is preserved by every dispatched command. -/
theorem dispatch_inv (now : ℕ) (c : RemoteCommand) {s : AppState} (h : MsgInv s) :
    MsgInv (dispatch now c s).1 := by
  unfold dispatch
  split
  · split <;> exact h
  · split <;> exact h
  · split <;> exact h
  · split <;> exact h
  · split <;> exact h
  · exact MsgInv.of_frame h (doTriggerMessage_frame now c.payload s).1
      (doTriggerMessage_frame now c.payload s).2.1
  · exact doSetMessages_inv c.payload h
  · exact doSetMessageTree_inv c.payload h
  · split <;> exact h
  · split <;> exact h
  · split <;> exact h
  · exact MsgInv.of_frame h (doSetActivePreset_frame c.payload s).1
      (doSetActivePreset_frame c.payload s).2.1
  · split <;> exact h
  · exact MsgInv.of_frame h (advanceSignal_frame c.payload s).1
      (advanceSignal_frame c.payload s).2
  · exact MsgInv.of_frame h (advanceSignal_frame c.payload s).1
      (advanceSignal_frame c.payload s).2
  · exact MsgInv.of_frame h (doPlayFolder_frame c.payload s).1
      (doPlayFolder_frame c.payload s).2
  · exact h
  · exact h
  · split
    · exact applyConfig_inv _ h
    · exact h
  · exact h

theorem handleCommand_inv (now : ℕ) (c : RemoteCommand) {s : AppState} (h : MsgInv s) :
    MsgInv (handleCommand now c s) :=
  dispatch_inv now c h

theorem loadConfigFromFile_inv (config : Json) {s : AppState} (h : MsgInv s) :
    MsgInv (loadConfigFromFile config s) :=
  applyConfig_inv config h

theorem initialState_inv : MsgInv initialState := by
  show defaultMessages = flattenMessageTree defaultMessageTree
  simp [flattenMessageTree, flattenWalk, flattenWalkList, fromJsonMessageConfig,
        optField, jsonLookup, defaultMessageTree, defaultPartyFolder, defaultTreeNode1,
        defaultTreeNode2, defaultTreeNode3, defaultMessages, Json.asStr,
        Json.asBool, Json.asNum, Json.isNull, Option.bind]

/-- C2: in the initial default state and after every operation — in
particular `set-message-tree`, both forms of `set-messages`, and
`load-configuration` with or without a `messageTree` key — the flat
`messages` field equals the depth-first pre-order flattening of the message
tree. -/
theorem c2_messages_eq_flatten_tree :
    ∀ {s : AppState}, Reachable s → s.messages = flattenMessageTree s.messageTree := by
  intro s h
  induction h with
  | init => exact initialState_inv
  | step now c _ ih => exact handleCommand_inv now c ih
  | load config _ ih => exact loadConfigFromFile_inv config ih

/-- Witness for C2 at concrete reachable states: the initial state, and the
state after a `set-messages` command with a legacy string-array payload. -/
theorem c2_witness :
    initialState.messages = flattenMessageTree initialState.messageTree ∧
    (handleCommand 0 ⟨"set-messages", some (Json.arr [Json.str "hello"])⟩
        initialState).messages
      = flattenMessageTree (handleCommand 0
          ⟨"set-messages", some (Json.arr [Json.str "hello"])⟩ initialState).messageTree :=
  ⟨c2_messages_eq_flatten_tree Reachable.init,
   c2_messages_eq_flatten_tree (Reachable.step 0 _ Reachable.init)⟩

theorem doSetMessages_queue (p : Option Json) (s : AppState) :
    (doSetMessages p s).folderPlaybackQueue = s.folderPlaybackQueue := by
  unfold doSetMessages
  repeat' split
  all_goals rfl

theorem doSetMessageTree_queue (p : Option Json) (s : AppState) :
    (doSetMessageTree p s).folderPlaybackQueue = s.folderPlaybackQueue := by
  unfold doSetMessageTree
  split
  all_goals rfl

theorem applyCfgMessageTree_queue (o : List (String × Json)) (s : AppState) :
    (applyCfgMessageTree o s).folderPlaybackQueue = s.folderPlaybackQueue := by
  unfold applyCfgMessageTree
  split
  all_goals rfl

theorem applyConfigObject_queue (o : List (String × Json)) (s : AppState) :
    (applyConfigObject o s).folderPlaybackQueue = s.folderPlaybackQueue := by
  unfold applyConfigObject
  rw [(applyCfgMessageStats_frame o _).2.2, (applyCfgTextStylePresets_frame o _).2.2,
      (applyCfgActivePreset_frame o _).2.2, (applyCfgVizPresets_frame o _).2.2,
      (applyCfgTextStyleSettings_frame o _).2.2, (applyCfgDefaultTextStyle_frame o _).2.2,
      applyCfgMessageTree_queue, (applyCfgMessages_spec o _).2.1,
      (applyCfgVizSettings_frame o _).2.2, (applyCfgCommonSettings_frame o _).2.2,
      (applyCfgEnabledVizs_frame o _).2.2, (applyCfgActiveViz_frame o _).2.2]

theorem applyConfig_queue (j : Json) (s : AppState) :
    (applyConfig j s).folderPlaybackQueue = s.folderPlaybackQueue := by
  unfold applyConfig
  split
  · exact applyConfigObject_queue _ s
  · rfl

theorem advanceSignal_not_guard {p : Option Json} {s : AppState}
    (h : ¬advanceGuard p s) : advanceSignal p s = (s, none) := by
  unfold advanceSignal
  split
  · rfl
  case _ pv =>
    split
    · rfl
    case _ mid hmid =>
      unfold advanceQueue
      split
      · rfl
      case _ q hq =>
        split
        · rfl
        case _ currentId hcur =>
          split
          case _ heq =>
            subst heq
            exact absurd ⟨pv, q, currentId, rfl, hmid, hq, hcur⟩ h
          · rfl

theorem advanceSignal_guard {pv : Json} {s : AppState} {q : FolderPlaybackQueue}
    {mid : String} (hmid : (pv.get "messageId").bind Json.asStr = some mid)
    (hq : s.folderPlaybackQueue = some q)
    (hcur : q.messageIds.get? q.currentIndex = some mid) :
    advanceSignal (some pv) s =
      if q.currentIndex + 1 < q.messageIds.length then
        ({ s with folderPlaybackQueue := some { q with currentIndex := q.currentIndex + 1 } },
         (q.messageIds.get? (q.currentIndex + 1)).bind fun nextId =>
           s.messages.find? (fun m => m.id == nextId))
      else ({ s with folderPlaybackQueue := none }, none) := by
  unfold advanceSignal
  dsimp only
  rw [hmid]
  unfold advanceQueue
  rw [hq]
  dsimp only
  rw [hcur]
  dsimp only
  rw [if_pos rfl]

theorem advanceSignal_queue_spec (p : Option Json) (s : AppState) :
    (advanceSignal p s).1.folderPlaybackQueue = s.folderPlaybackQueue ∨
    (advanceSignal p s).1.folderPlaybackQueue = none ∨
    ∃ q, s.folderPlaybackQueue = some q ∧ q.currentIndex + 1 < q.messageIds.length ∧
      (advanceSignal p s).1.folderPlaybackQueue
        = some { q with currentIndex := q.currentIndex + 1 } := by
  by_cases hg : advanceGuard p s
  · obtain ⟨pv, q, mid, hp, hmid, hq, hcur⟩ := hg
    subst hp
    rw [advanceSignal_guard hmid hq hcur]
    split
    case _ hlt => exact Or.inr (Or.inr ⟨q, hq, hlt, rfl⟩)
    · exact Or.inr (Or.inl rfl)
  · rw [advanceSignal_not_guard hg]
    exact Or.inl rfl

theorem doPlayFolder_eval {pv : Json} {s : AppState} {fid : String} {ids : List String}
    (hf : (pv.get "folderId").bind Json.asStr = some fid)
    (hc : collectMessagesFromFolder fid s.messageTree = ids) (hne : ids ≠ []) :
    doPlayFolder (some pv) s
      = ({ s with folderPlaybackQueue := some ⟨fid, ids, 0⟩ },
         ids.head?.bind fun firstId => s.messages.find? (fun m => m.id == firstId)) := by
  unfold doPlayFolder
  dsimp only
  rw [hf]
  dsimp only
  rw [hc, if_neg (by simp [List.isEmpty_iff, hne])]
  cases hh : ids.head? with
  | none => rfl
  | some firstId =>
    dsimp only
    rw [Option.some_bind]
    cases hfind : s.messages.find? (fun m => m.id == firstId) <;> rfl

theorem doPlayFolder_queue_spec (p : Option Json) (s : AppState) :
    (doPlayFolder p s).1.folderPlaybackQueue = s.folderPlaybackQueue ∨
    ∃ fid ids, ids ≠ [] ∧ (doPlayFolder p s).1.folderPlaybackQueue
      = some { folderId := fid, messageIds := ids, currentIndex := 0 } := by
  unfold doPlayFolder
  dsimp only
  repeat' split
  all_goals try exact Or.inl rfl
  all_goals refine Or.inr ⟨_, _, ?_, rfl⟩
  all_goals simp_all [List.isEmpty_iff]

/-- Summary of what one command can do to the folder playback queue: leave it,
clear it, install a fresh queue at index 0 (`play-folder`), or advance it by
exactly one within bounds (the two advance signals). -/
theorem handleCommand_queue_spec (now : ℕ) (c : RemoteCommand) (s : AppState) :
    (handleCommand now c s).folderPlaybackQueue = s.folderPlaybackQueue ∨
    (handleCommand now c s).folderPlaybackQueue = none ∨
    (c.command = "play-folder" ∧ ∃ fid ids, ids ≠ [] ∧
      (handleCommand now c s).folderPlaybackQueue
        = some { folderId := fid, messageIds := ids, currentIndex := 0 }) ∨
    ((c.command = "clear-active-message" ∨ c.command = "message-complete") ∧
      ∃ q, s.folderPlaybackQueue = some q ∧ q.currentIndex + 1 < q.messageIds.length ∧
        (handleCommand now c s).folderPlaybackQueue
          = some { q with currentIndex := q.currentIndex + 1 }) := by
  show (dispatch now c s).1.folderPlaybackQueue = _ ∨
    (dispatch now c s).1.folderPlaybackQueue = _ ∨
    (_ ∧ ∃ fid ids, _ ∧ (dispatch now c s).1.folderPlaybackQueue = _) ∨
    (_ ∧ ∃ q, _ ∧ _ ∧ (dispatch now c s).1.folderPlaybackQueue = _)
  unfold dispatch
  split
  · split <;> exact Or.inl rfl
  · split <;> exact Or.inl rfl
  · split <;> exact Or.inl rfl
  · split <;> exact Or.inl rfl
  · split <;> exact Or.inl rfl
  · exact Or.inl (doTriggerMessage_frame now c.payload s).2.2
  · exact Or.inl (doSetMessages_queue c.payload s)
  · exact Or.inl (doSetMessageTree_queue c.payload s)
  · split <;> exact Or.inl rfl
  · split <;> exact Or.inl rfl
  · split <;> exact Or.inl rfl
  · exact Or.inl (doSetActivePreset_frame c.payload s).2.2
  · split <;> exact Or.inl rfl
  case _ heq =>
    rcases advanceSignal_queue_spec c.payload s with h | h | ⟨q, hq, hlt, h⟩
    · exact Or.inl h
    · exact Or.inr (Or.inl h)
    · exact Or.inr (Or.inr (Or.inr ⟨Or.inl heq, q, hq, hlt, h⟩))
  case _ heq =>
    rcases advanceSignal_queue_spec c.payload s with h | h | ⟨q, hq, hlt, h⟩
    · exact Or.inl h
    · exact Or.inr (Or.inl h)
    · exact Or.inr (Or.inr (Or.inr ⟨Or.inr heq, q, hq, hlt, h⟩))
  case _ heq =>
    rcases doPlayFolder_queue_spec c.payload s with h | ⟨fid, ids, hne, h⟩
    · exact Or.inl h
    · exact Or.inr (Or.inr (Or.inl ⟨heq, fid, ids, hne, h⟩))
  · exact Or.inr (Or.inl rfl)
  · exact Or.inl rfl
  · split
    · exact Or.inl (applyConfig_queue _ s)
    · exact Or.inl rfl
  · exact Or.inl rfl

/-- Every reachable queue keeps its index strictly below the id-list length
(when the index would reach the length, the queue is cleared instead). -/
theorem reachable_queue_lt {s : AppState} (h : Reachable s) :
    ∀ q ∈ s.folderPlaybackQueue, q.currentIndex < q.messageIds.length := by
  induction h with
  | init =>
    intro q hq
    rw [Option.mem_def] at hq
    exact Option.noConfusion hq
  | @step s0 now c _ ih =>
    intro q hq
    rw [Option.mem_def] at hq
    rcases handleCommand_queue_spec now c s0 with h1 | h1 | ⟨_, fid, ids, hne, h1⟩ |
      ⟨_, q0, hq0, hlt, h1⟩
    · rw [h1] at hq
      exact ih q (Option.mem_def.mpr hq)
    · rw [h1] at hq
      exact Option.noConfusion hq
    · rw [h1] at hq
      injection hq with h2
      subst h2
      simpa using List.length_pos.mpr hne
    · rw [h1] at hq
      injection hq with h2
      subst h2
      exact hlt
  | @load s0 config _ ih =>
    intro q hq
    rw [Option.mem_def] at hq
    have hframe : (loadConfigFromFile config s0).folderPlaybackQueue
        = s0.folderPlaybackQueue := applyConfig_queue config s0
    rw [hframe] at hq
    exact ih q (Option.mem_def.mpr hq)

theorem collectIds_node1 : collectIds defaultTreeNode1 = ["msg-1"] := by
  simp [collectIds, Json.get, jsonLookup, Json.asStr, defaultTreeNode1, Option.bind]

theorem collectIds_node2 : collectIds defaultTreeNode2 = ["msg-2"] := by
  simp [collectIds, Json.get, jsonLookup, Json.asStr, defaultTreeNode2, Option.bind]

theorem collectIds_node3 : collectIds defaultTreeNode3 = ["msg-3"] := by
  simp [collectIds, Json.get, jsonLookup, Json.asStr, defaultTreeNode3, Option.bind]

theorem findFolder_party_node :
    findFolder "party-countdown" defaultPartyFolder = some defaultPartyFolder := by
  rw [show defaultPartyFolder = Json.obj
    [("type", Json.str "folder"), ("id", Json.str "party-countdown"),
     ("name", Json.str "Party Countdown"),
     ("children", Json.arr [defaultTreeNode1, defaultTreeNode2, defaultTreeNode3])] from rfl]
  rw [findFolder]
  simp [jsonLookup, Json.asStr]

theorem findFolder_party :
    findFolder "party-countdown" defaultMessageTree = some defaultPartyFolder := by
  rw [show defaultMessageTree = Json.arr [defaultPartyFolder] from rfl]
  rw [findFolder, findFolderList, findFolder_party_node]

theorem collect_found {fid : String} {tree folder : Json}
    (h : findFolder fid tree = some folder) :
    collectMessagesFromFolder fid tree
      = (match folder.get "children" with
         | some children => collectIds children
         | none => []) := by
  unfold collectMessagesFromFolder
  rw [h]

theorem collectIds_party_children :
    collectIds (Json.arr [defaultTreeNode1, defaultTreeNode2, defaultTreeNode3])
      = ["msg-1", "msg-2", "msg-3"] := by
  rw [collectIds]
  rw [collectIdsList, collectIdsList, collectIdsList, collectIdsList]
  rw [collectIds_node1, collectIds_node2, collectIds_node3]
  rfl

/-- The message ids collected for the default `party-countdown` folder. -/
theorem collect_party_countdown :
    collectMessagesFromFolder "party-countdown" defaultMessageTree
      = ["msg-1", "msg-2", "msg-3"] := by
  rw [collect_found findFolder_party]
  rw [show defaultPartyFolder.get "children"
      = some (Json.arr [defaultTreeNode1, defaultTreeNode2, defaultTreeNode3]) from rfl]
  exact collectIds_party_children

/-- The state after `play-folder {folderId: "party-countdown"}` on the
defaults: a fresh queue at index 0 and the first default message triggered. -/
theorem playFolder_initial_eq :
    handleCommand 0 ⟨"play-folder", some (Json.obj [("folderId", Json.str "party-countdown")])⟩
        initialState
      = { initialState with
          folderPlaybackQueue := some ⟨"party-countdown", ["msg-1", "msg-2", "msg-3"], 0⟩,
          triggeredMessage := some ⟨"msg-1", "Countdown initiated...", none, "typewriter",
            none, none, none, none, none, none⟩ } := by
  have hd1 := @doPlayFolder_eval (Json.obj [("folderId", Json.str "party-countdown")])
    initialState "party-countdown" ["msg-1", "msg-2", "msg-3"]
    rfl collect_party_countdown (by simp)
  rw [handleCommand_eq]
  rw [show dispatch 0
      ⟨"play-folder", some (Json.obj [("folderId", Json.str "party-countdown")])⟩ initialState
    = doPlayFolder (some (Json.obj [("folderId", Json.str "party-countdown")])) initialState
    from by simp only [dispatch]]
  rw [hd1]
  rfl

/-- A stale-free `message-complete {messageId: "msg-1"}` on the state above
advances the queue to index 1 and triggers the second default message. -/
theorem msgComplete_after_playFolder_eq :
    handleCommand 0 ⟨"message-complete", some (Json.obj [("messageId", Json.str "msg-1")])⟩
        ({ initialState with
           folderPlaybackQueue := some ⟨"party-countdown", ["msg-1", "msg-2", "msg-3"], 0⟩,
           triggeredMessage := some ⟨"msg-1", "Countdown initiated...", none, "typewriter",
             none, none, none, none, none, none⟩ })
      = { initialState with
          folderPlaybackQueue := some ⟨"party-countdown", ["msg-1", "msg-2", "msg-3"], 1⟩,
          triggeredMessage := some ⟨"msg-2", "3, 2, 1", none, "bounce",
            none, none, none, some 1, some true, some ","⟩ } := rfl

/-- C3 counterexample: the claim that `currentIndex` never decreases across
operations fails at `play-folder`, which unconditionally installs a fresh
queue at index 0 — here a reachable state with `currentIndex = 1` drops back
to 0. -/
theorem c3_counterexample :
    Reachable (handleCommand 0
      ⟨"message-complete", some (Json.obj [("messageId", Json.str "msg-1")])⟩
      (handleCommand 0
        ⟨"play-folder", some (Json.obj [("folderId", Json.str "party-countdown")])⟩
        initialState)) ∧
    Option.map FolderPlaybackQueue.currentIndex
      (handleCommand 0
        ⟨"message-complete", some (Json.obj [("messageId", Json.str "msg-1")])⟩
        (handleCommand 0
          ⟨"play-folder", some (Json.obj [("folderId", Json.str "party-countdown")])⟩
          initialState)).folderPlaybackQueue = some 1 ∧
    Option.map FolderPlaybackQueue.currentIndex
      (handleCommand 0
        ⟨"play-folder", some (Json.obj [("folderId", Json.str "party-countdown")])⟩
        (handleCommand 0
          ⟨"message-complete", some (Json.obj [("messageId", Json.str "msg-1")])⟩
          (handleCommand 0
            ⟨"play-folder", some (Json.obj [("folderId", Json.str "party-countdown")])⟩
            initialState))).folderPlaybackQueue = some 0 := by
  refine ⟨Reachable.step 0 _ (Reachable.step 0 _ Reachable.init), ?_, ?_⟩
  · rw [playFolder_initial_eq, msgComplete_after_playFolder_eq]
    rfl
  · rw [playFolder_initial_eq, msgComplete_after_playFolder_eq]
    have hd3 := @doPlayFolder_eval (Json.obj [("folderId", Json.str "party-countdown")])
      ({ initialState with
          folderPlaybackQueue := some ⟨"party-countdown", ["msg-1", "msg-2", "msg-3"], 1⟩,
          triggeredMessage := some ⟨"msg-2", "3, 2, 1", none, "bounce",
            none, none, none, some 1, some true, some ","⟩ })
      "party-countdown" ["msg-1", "msg-2", "msg-3"]
      rfl collect_party_countdown (by simp)
    rw [handleCommand_eq]
    rw [show dispatch 0
        ⟨"play-folder", some (Json.obj [("folderId", Json.str "party-countdown")])⟩
        ({ initialState with
           folderPlaybackQueue := some ⟨"party-countdown", ["msg-1", "msg-2", "msg-3"], 1⟩,
           triggeredMessage := some ⟨"msg-2", "3, 2, 1", none, "bounce",
             none, none, none, some 1, some true, some ","⟩ })
      = doPlayFolder (some (Json.obj [("folderId", Json.str "party-countdown")]))
          ({ initialState with
             folderPlaybackQueue := some ⟨"party-countdown", ["msg-1", "msg-2", "msg-3"], 1⟩,
             triggeredMessage := some ⟨"msg-2", "3, 2, 1", none, "bounce",
               none, none, none, some 1, some true, some ","⟩ })
      from by simp only [dispatch]]
    rw [hd3]
    rfl

/-- C3 (amended): `currentIndex` always satisfies
`0 ≤ currentIndex ≤ len(messageIds)` on reachable states; it never decreases
under any command other than `play-folder` (which replaces the queue by a
fresh one at index 0); and an advance that would make `currentIndex` equal to
`len(messageIds)` clears the queue to `None` instead. -/
theorem c3_amended :
    (∀ s : AppState, Reachable s →
      ∀ q ∈ s.folderPlaybackQueue, q.currentIndex ≤ q.messageIds.length) ∧
    (∀ (now : ℕ) (c : RemoteCommand) (s : AppState) (q q' : FolderPlaybackQueue),
      c.command ≠ "play-folder" → s.folderPlaybackQueue = some q →
      (handleCommand now c s).folderPlaybackQueue = some q' →
      q.currentIndex ≤ q'.currentIndex) ∧
    (∀ (now : ℕ) (cname : String) (pv : Json) (s : AppState) (q : FolderPlaybackQueue)
      (mid : String),
      (cname = "clear-active-message" ∨ cname = "message-complete") →
      s.folderPlaybackQueue = some q →
      (pv.get "messageId").bind Json.asStr = some mid →
      q.messageIds.get? q.currentIndex = some mid →
      q.currentIndex + 1 = q.messageIds.length →
      (handleCommand now ⟨cname, some pv⟩ s).folderPlaybackQueue = none) := by
  refine ⟨?_, ?_, ?_⟩
  · intro s h q hq
    exact le_of_lt (reachable_queue_lt h q hq)
  · intro now c s q q' hc hq hq'
    rcases handleCommand_queue_spec now c s with h1 | h1 | ⟨hcmd, _⟩ |
      ⟨_, q0, hq0, hlt, h1⟩
    · rw [h1, hq] at hq'
      injection hq' with e
      subst e
      exact le_refl _
    · rw [h1] at hq'
      exact Option.noConfusion hq'
    · exact absurd hcmd hc
    · rw [hq0] at hq
      injection hq with e
      subst e
      rw [h1] at hq'
      injection hq' with e'
      subst e'
      exact Nat.le_succ _
  · intro now cname pv s q mid hcn hq hmid hcur hlen
    rcases hcn with h | h
    · subst h
      rw [handleCommand_eq]
      rw [show dispatch now ⟨"clear-active-message", some pv⟩ s
        = advanceSignal (some pv) s from by simp only [dispatch]]
      rw [advanceSignal_guard hmid hq hcur, if_neg (by omega)]
      rfl
    · subst h
      rw [handleCommand_eq]
      rw [show dispatch now ⟨"message-complete", some pv⟩ s
        = advanceSignal (some pv) s from by simp only [dispatch]]
      rw [advanceSignal_guard hmid hq hcur, if_neg (by omega)]
      rfl

/-- Witness for C3 (amended), exercising the non-decrease part at a concrete
state with a queue at index 0 and an unrelated command. -/
theorem c3_witness :
    (FolderPlaybackQueue.mk "F" ["a"] 0).currentIndex
      ≤ (FolderPlaybackQueue.mk "F" ["a"] 0).currentIndex :=
  c3_amended.2.1 0 ⟨"bogus", none⟩
    ({ initialState with folderPlaybackQueue := some ⟨"F", ["a"], 0⟩ })
    ⟨"F", ["a"], 0⟩ ⟨"F", ["a"], 0⟩ (by decide) rfl rfl

/-- C4 counterexample: a stale `message-complete` whose guard fails (here: no
queue at all) still mutates the store — the final `broadcast` overwrites the
stored currently-triggered message with `None`. -/
theorem c4_counterexample :
    (handleCommand 0 ⟨"trigger-message", some (Json.str "hello")⟩
      initialState).triggeredMessage = some (legacyMessage "triggered" "hello") ∧
    (handleCommand 0 ⟨"trigger-message", some (Json.str "hello")⟩
      initialState).folderPlaybackQueue = none ∧
    (handleCommand 0 ⟨"message-complete", some (Json.obj [("messageId", Json.str "x")])⟩
      (handleCommand 0 ⟨"trigger-message", some (Json.str "hello")⟩
        initialState)).triggeredMessage = none :=
  ⟨rfl, rfl, rfl⟩

/-- C4 (amended): an advance signal whose guard fails (no queue, unresolvable
payload, or a `messageId` different from the id at `currentIndex`) changes
nothing in the store except overwriting the stored triggered message with
`None` — in particular the queue is untouched, so a stale signal never
advances `currentIndex`. -/
theorem c4_amended :
    ∀ (now : ℕ) (cname : String) (p : Option Json) (s : AppState),
      (cname = "clear-active-message" ∨ cname = "message-complete") →
      ¬advanceGuard p s →
      handleCommand now ⟨cname, p⟩ s = { s with triggeredMessage := none } := by
  intro now cname p s hcn hg
  rcases hcn with h | h
  · subst h
    rw [handleCommand_eq]
    rw [show dispatch now ⟨"clear-active-message", p⟩ s
      = advanceSignal p s from by simp only [dispatch]]
    rw [advanceSignal_not_guard hg]
    rfl
  · subst h
    rw [handleCommand_eq]
    rw [show dispatch now ⟨"message-complete", p⟩ s
      = advanceSignal p s from by simp only [dispatch]]
    rw [advanceSignal_not_guard hg]
    rfl

/-- Witness for C4 (amended) at a concrete stale signal on the default state. -/
theorem c4_witness :
    handleCommand 0 ⟨"message-complete", some (Json.obj [("messageId", Json.str "x")])⟩
        initialState
      = { initialState with triggeredMessage := none } :=
  c4_amended 0 "message-complete" (some (Json.obj [("messageId", Json.str "x")]))
    initialState (Or.inr rfl)
    (fun h => by
      obtain ⟨pv, q, mid, _, _, hq, _⟩ := h
      exact Option.noConfusion hq)

/-- C7 counterexample: `clear-active-message` is not a pure acknowledgement —
when its `messageId` matches the current queue entry it advances the folder
playback queue (here from index 0 to index 1). -/
theorem c7_counterexample :
    Option.map FolderPlaybackQueue.currentIndex
      (handleCommand 0
        ⟨"play-folder", some (Json.obj [("folderId", Json.str "party-countdown")])⟩
        initialState).folderPlaybackQueue = some 0 ∧
    Option.map FolderPlaybackQueue.currentIndex
      (handleCommand 0
        ⟨"clear-active-message", some (Json.obj [("messageId", Json.str "msg-1")])⟩
        (handleCommand 0
          ⟨"play-folder", some (Json.obj [("folderId", Json.str "party-countdown")])⟩
          initialState)).folderPlaybackQueue = some 1 := by
  constructor
  · rw [playFolder_initial_eq]
    rfl
  · rw [playFolder_initial_eq]
    rfl

/-- C7 (amended): `clear-active-message` performs the guarded queue advance
(exactly as `message-complete` does) and overwrites the stored triggered
message; when the guard fails, no field other than the triggered message
changes. -/
theorem c7_amended :
    ∀ (now : ℕ) (p : Option Json) (s : AppState),
      (¬advanceGuard p s →
        handleCommand now ⟨"clear-active-message", p⟩ s
          = { s with triggeredMessage := none }) ∧
      (∀ (pv : Json) (q : FolderPlaybackQueue) (mid : String),
        p = some pv → (pv.get "messageId").bind Json.asStr = some mid →
        s.folderPlaybackQueue = some q →
        q.messageIds.get? q.currentIndex = some mid →
        handleCommand now ⟨"clear-active-message", p⟩ s
          = if q.currentIndex + 1 < q.messageIds.length then
              { s with
                folderPlaybackQueue := some { q with currentIndex := q.currentIndex + 1 },
                triggeredMessage := (q.messageIds.get? (q.currentIndex + 1)).bind fun nextId =>
                  s.messages.find? (fun m => m.id == nextId) }
            else { s with folderPlaybackQueue := none, triggeredMessage := none }) := by
  intro now p s
  constructor
  · intro hg
    rw [handleCommand_eq]
    rw [show dispatch now ⟨"clear-active-message", p⟩ s
      = advanceSignal p s from by simp only [dispatch]]
    rw [advanceSignal_not_guard hg]
    rfl
  · intro pv q mid hp hmid hq hcur
    subst hp
    rw [handleCommand_eq]
    rw [show dispatch now ⟨"clear-active-message", some pv⟩ s
      = advanceSignal (some pv) s from by simp only [dispatch]]
    rw [advanceSignal_guard hmid hq hcur]
    by_cases hlt : q.currentIndex + 1 < q.messageIds.length
    · rw [if_pos hlt, if_pos hlt]
      rfl
    · rw [if_neg hlt, if_neg hlt]
      rfl

/-- Witness for C7 (amended): a guard-failing `clear-active-message` on the
default state only clears the stored triggered message. -/
theorem c7_witness :
    handleCommand 0 ⟨"clear-active-message", some (Json.obj [("messageId", Json.str "x")])⟩
        initialState
      = { initialState with triggeredMessage := none } :=
  (c7_amended 0 (some (Json.obj [("messageId", Json.str "x")])) initialState).1
    (fun h => by
      obtain ⟨pv, q, mid, _, _, hq, _⟩ := h
      exact Option.noConfusion hq)

/-- C1 counterexample: a command that produces no triggered message
(`set-mode`) does not leave the stored currently-triggered message unchanged —
the unconditional store in `broadcast` overwrites it with `None`. -/
theorem c1_counterexample :
    (handleCommand 0 ⟨"trigger-message", some (Json.str "hello")⟩
      initialState).triggeredMessage = some (legacyMessage "triggered" "hello") ∧
    (handleCommand 0 ⟨"set-mode", some (Json.str "techno")⟩
      (handleCommand 0 ⟨"trigger-message", some (Json.str "hello")⟩
        initialState)).triggeredMessage = none :=
  ⟨rfl, rfl⟩

/-- C1 (amended): every processed command replaces the stored currently-
triggered message with the message it produced — `None` when it produced
none; in particular, every command other than `trigger-message`,
`clear-active-message`, `message-complete` and `play-folder` stores `None`. -/
theorem c1_amended :
    ∀ (now : ℕ) (c : RemoteCommand) (s : AppState),
      (handleCommand now c s).triggeredMessage = (dispatch now c s).2 ∧
      (c.command ∉ ["trigger-message", "clear-active-message", "message-complete",
          "play-folder"] →
        (handleCommand now c s).triggeredMessage = none) := by
  intro now c s
  refine ⟨rfl, ?_⟩
  intro hc
  show (dispatch now c s).2 = none
  unfold dispatch
  split
  all_goals try (split <;> rfl)
  all_goals try rfl
  all_goals simp_all

/-- Witness for C1 (amended) at a concrete non-producing command. -/
theorem c1_witness :
    (handleCommand 0 ⟨"set-mode", some (Json.str "techno")⟩
      initialState).triggeredMessage = none :=
  (c1_amended 0 ⟨"set-mode", some (Json.str "techno")⟩ initialState).2 (by decide)


/-- C8 counterexample: an unrecognized command does answer `{"status":"ok"}`,
but it does not leave every field unchanged — it overwrites the stored
currently-triggered message with `None`. -/
theorem c8_counterexample :
    (handleCommand 0 ⟨"trigger-message", some (Json.str "hello")⟩
      initialState).triggeredMessage = some (legacyMessage "triggered" "hello") ∧
    (handleCommand 0 ⟨"bogus-command", none⟩
      (handleCommand 0 ⟨"trigger-message", some (Json.str "hello")⟩
        initialState)).triggeredMessage = none ∧
    handleCommandResponse 0 ⟨"bogus-command", none⟩
      (handleCommand 0 ⟨"trigger-message", some (Json.str "hello")⟩ initialState)
      = Json.obj [("status", Json.str "ok")] :=
  ⟨rfl, rfl, rfl⟩

/-- C8 (amended): an unrecognized command is answered `{"status":"ok"}` and
leaves every field of the canonical state unchanged except the stored
currently-triggered message, which is overwritten with `None`. -/
theorem c8_amended :
    ∀ (now : ℕ) (c : RemoteCommand) (s : AppState),
      c.command ∉ knownCommands →
      handleCommand now c s = { s with triggeredMessage := none } ∧
      handleCommandResponse now c s = Json.obj [("status", Json.str "ok")] := by
  intro now c s hc
  refine ⟨?_, rfl⟩
  rw [handleCommand_eq]
  have hd : dispatch now c s = (s, none) := by
    unfold dispatch
    split
    all_goals first
      | rfl
      | (exfalso
         apply hc
         simp_all [knownCommands])
  rw [hd]
  rfl

/-- Witness for C8 (amended) at a concrete unrecognized command. -/
theorem c8_witness :
    handleCommand 0 ⟨"bogus-command", none⟩ initialState
      = { initialState with triggeredMessage := none } ∧
    handleCommandResponse 0 ⟨"bogus-command", none⟩ initialState
      = Json.obj [("status", Json.str "ok")] :=
  c8_amended 0 ⟨"bogus-command", none⟩ initialState (by decide)

/-- C10: when the advance guard passes but the id at the new `currentIndex`
does not occur in the flat messages list, `currentIndex` is still incremented
while no trigger is emitted for any message — the queue stalls at the new
index instead of skipping ahead. Holds for both advance commands. -/
theorem c10_stalls_on_unresolvable_next :
    ∀ (now : ℕ) (cname : String) (pv : Json) (s : AppState) (q : FolderPlaybackQueue)
      (mid nextId : String),
      (cname = "clear-active-message" ∨ cname = "message-complete") →
      s.folderPlaybackQueue = some q →
      (pv.get "messageId").bind Json.asStr = some mid →
      q.messageIds.get? q.currentIndex = some mid →
      q.messageIds.get? (q.currentIndex + 1) = some nextId →
      s.messages.find? (fun m => m.id == nextId) = none →
      handleCommand now ⟨cname, some pv⟩ s
        = { s with
            folderPlaybackQueue := some { q with currentIndex := q.currentIndex + 1 },
            triggeredMessage := none } := by
  intro now cname pv s q mid nextId hcn hq hmid hcur hnext hfind
  have hlt : q.currentIndex + 1 < q.messageIds.length := by
    have := List.get?_eq_some.mp hnext
    exact this.1
  rcases hcn with h | h
  · subst h
    rw [handleCommand_eq]
    rw [show dispatch now ⟨"clear-active-message", some pv⟩ s
      = advanceSignal (some pv) s from by simp only [dispatch]]
    rw [advanceSignal_guard hmid hq hcur, if_pos hlt, hnext, Option.some_bind, hfind]
    rfl
  · subst h
    rw [handleCommand_eq]
    rw [show dispatch now ⟨"message-complete", some pv⟩ s
      = advanceSignal (some pv) s from by simp only [dispatch]]
    rw [advanceSignal_guard hmid hq hcur, if_pos hlt, hnext, Option.some_bind, hfind]
    rfl

/-- Witness for C10: a queue over ids `a, b` whose `b` does not occur in the
default flat list — completing `a` leaves the queue stalled at index 1 with
nothing triggered. -/
theorem c10_witness :
    handleCommand 0 ⟨"message-complete", some (Json.obj [("messageId", Json.str "a")])⟩
        ({ initialState with folderPlaybackQueue := some ⟨"F", ["a", "b"], 0⟩ })
      = { { initialState with folderPlaybackQueue := some ⟨"F", ["a", "b"], 0⟩ } with
          folderPlaybackQueue := some ⟨"F", ["a", "b"], 1⟩,
          triggeredMessage := none } :=
  c10_stalls_on_unresolvable_next 0 "message-complete"
    (Json.obj [("messageId", Json.str "a")])
    ({ initialState with folderPlaybackQueue := some ⟨"F", ["a", "b"], 0⟩ })
    ⟨"F", ["a", "b"], 0⟩ "a" "b" (Or.inr rfl) rfl rfl rfl rfl rfl

theorem handleCommand_trigger (now : ℕ) (msg : MessageConfig) (hwf : msg.wf)
    (s : AppState) :
    handleCommand now ⟨"trigger-message", some (toJsonMessageConfig msg)⟩ s
      = { s with messageStats := updateStats s.messageStats msg.id now,
                 triggeredMessage := some msg } := by
  rw [handleCommand_eq]
  rw [show dispatch now ⟨"trigger-message", some (toJsonMessageConfig msg)⟩ s
    = doTriggerMessage now (some (toJsonMessageConfig msg)) s from by simp only [dispatch]]
  unfold doTriggerMessage
  dsimp only [toJsonMessageConfig, Json.asStr]
  rw [show fromJsonMessageConfig (Json.obj (toJsonFields msg)) = some msg
    from fromJson_toJson hwf]
  rfl

/-- One stats update starting from the empty stats document. -/
theorem updateStats_empty (id : String) (now : ℕ) :
    updateStats (Json.obj []) id now
      = Json.obj [(id, mkStatEntry id 1 now [mkTimestampEntry now])] := rfl

/-- One stats update on a singleton stats document holding `id`'s entry. -/
theorem updateStats_step (id : String) (now count last : ℕ) (hist : List Json)
    (hc : count < 2 ^ 64) :
    updateStats (Json.obj [(id, mkStatEntry id count last hist)]) id now
      = Json.obj [(id, mkStatEntry id ((count + 1) % 2 ^ 64) now
          (if hist.length + 1 > 50
           then (hist ++ [mkTimestampEntry now]).drop (hist.length + 1 - 50)
           else hist ++ [mkTimestampEntry now]))] := by
  unfold updateStats mkStatEntry mkTimestampEntry
  simp [Json.get, jsonLookup, jsonInsert, Json.asArr, Json.asU64_natCast hc, Option.bind]

theorem statEntry_get (i : String) (c l : ℕ) (h : List Json) :
    (Json.obj [(i, mkStatEntry i c l h)]).get i = some (mkStatEntry i c l h) := by
  simp [Json.get, jsonLookup]

theorem statEntry_count (i : String) (c l : ℕ) (h : List Json) :
    (mkStatEntry i c l h).get "triggerCount" = some (Json.num (c : ℚ)) := by
  simp [mkStatEntry, Json.get, jsonLookup]

theorem statEntry_history (i : String) (c l : ℕ) (h : List Json) :
    (mkStatEntry i c l h).get "history" = some (Json.arr h) := by
  simp [mkStatEntry, Json.get, jsonLookup]

theorem drop_cap_step (hist : List Json) (e : Json) (ts : List ℕ)
    (hlen : hist.length ≤ 50) :
    ((if hist.length + 1 > 50
        then (hist ++ [e]).drop (hist.length + 1 - 50)
        else hist ++ [e]) ++ List.map mkTimestampEntry ts).drop
      ((if hist.length + 1 > 50
          then (hist ++ [e]).drop (hist.length + 1 - 50)
          else hist ++ [e]).length + ts.length - 50)
    = (hist ++ e :: List.map mkTimestampEntry ts).drop
        (hist.length + (ts.length + 1) - 50) := by
  split
  · rename_i hgt
    have h50 : hist.length = 50 := by omega
    rw [show hist.length + 1 - 50 = 1 from by omega]
    rw [show ((hist ++ [e]).drop 1).length = 50 from by
      simp [List.length_drop, h50]]
    rw [show 50 + ts.length - 50 = ts.length from by omega]
    rw [← List.drop_append_of_le_length (by simp)]
    rw [List.drop_drop]
    rw [List.append_assoc, List.singleton_append]
    congr 1
    omega
  · rename_i hle
    rw [List.append_assoc, List.singleton_append]
    congr 1
    simp only [List.length_append, List.length_cons, List.length_nil]
    omega

/-- Stats evolution across a run of `trigger-message` commands for one id,
starting from a singleton stats document: the count accumulates mod 2^64 and
the stored history is exactly the suffix of the chronological entry list
that fits under the 50-entry cap (entries are dropped from the front, i.e.
oldest first). -/
theorem iterTrigger_stats (msg : MessageConfig) (hwf : msg.wf) :
    ∀ (ts : List ℕ) (count last : ℕ) (hist : List Json) (s : AppState),
      count < 2 ^ 64 → hist.length ≤ 50 →
      s.messageStats = Json.obj [(msg.id, mkStatEntry msg.id count last hist)] →
      statTriggerCount (iterTrigger msg ts s).messageStats msg.id
          = some ((count + ts.length) % 2 ^ 64) ∧
      statHistory (iterTrigger msg ts s).messageStats msg.id
          = some ((hist ++ List.map mkTimestampEntry ts).drop
              (hist.length + ts.length - 50)) := by
  intro ts
  induction ts with
  | nil =>
    intro count last hist s hc hlen hstats
    rw [iterTrigger, hstats]
    constructor
    · unfold statTriggerCount
      rw [statEntry_get, Option.some_bind, statEntry_count, Option.some_bind,
          Json.asU64_natCast hc]
      simp only [List.length_nil, Nat.add_zero, Nat.mod_eq_of_lt hc]
    · unfold statHistory
      rw [statEntry_get, Option.some_bind, statEntry_history, Option.some_bind]
      simp only [List.map_nil, List.append_nil, List.length_nil, Nat.add_zero,
        Nat.sub_eq_zero_of_le hlen, List.drop_zero]
      rfl
  | cons t ts ih =>
    intro count last hist s hc hlen hstats
    rw [iterTrigger]
    have hstats' :
        (handleCommand t ⟨"trigger-message", some (toJsonMessageConfig msg)⟩ s).messageStats
        = Json.obj [(msg.id, mkStatEntry msg.id ((count + 1) % 2 ^ 64) t
            (if hist.length + 1 > 50
             then (hist ++ [mkTimestampEntry t]).drop (hist.length + 1 - 50)
             else hist ++ [mkTimestampEntry t]))] := by
      rw [handleCommand_trigger t msg hwf s]
      show updateStats s.messageStats msg.id t = _
      rw [hstats, updateStats_step msg.id t count last hist hc]
    have hlen' : (if hist.length + 1 > 50
        then (hist ++ [mkTimestampEntry t]).drop (hist.length + 1 - 50)
        else hist ++ [mkTimestampEntry t]).length ≤ 50 := by
      split <;> simp <;> omega
    obtain ⟨h1, h2⟩ := ih ((count + 1) % 2 ^ 64) t _ _
      (Nat.mod_lt _ (by norm_num)) hlen' hstats'
    constructor
    · rw [h1, Nat.mod_add_mod]
      congr 1
      simp only [List.length_cons]
      omega
    · rw [h2, drop_cap_step hist (mkTimestampEntry t) ts hlen]
      simp only [List.map_cons, List.length_cons]

/-- C5 (amended): starting from an empty stats document, after `n ≥ 1`
successful `trigger-message` commands for the same message id, at timestamps
`ts`, that id's entry's history is exactly the chronological list of
per-trigger timestamp entries with its oldest entries dropped down to the
50-entry cap — `(ts.map mkTimestampEntry).drop (n - 50)`, the most recent
`min(n, 50)` entries in order — and `triggerCount = n mod 2^64`, equal to
`n` for every realizable `n < 2^64`, since the counter is a `u64`. -/
theorem c5_amended :
    ∀ (msg : MessageConfig) (ts : List ℕ) (s : AppState),
      msg.wf → s.messageStats = Json.obj [] → ts ≠ [] →
      statTriggerCount (iterTrigger msg ts s).messageStats msg.id
          = some (ts.length % 2 ^ 64) ∧
      statHistory (iterTrigger msg ts s).messageStats msg.id
          = some ((List.map mkTimestampEntry ts).drop (ts.length - 50)) ∧
      ((List.map mkTimestampEntry ts).drop (ts.length - 50)).length
          = min ts.length 50 := by
  intro msg ts s hwf hstats hne
  have key : statTriggerCount (iterTrigger msg ts s).messageStats msg.id
        = some (ts.length % 2 ^ 64) ∧
      statHistory (iterTrigger msg ts s).messageStats msg.id
        = some ((List.map mkTimestampEntry ts).drop (ts.length - 50)) := by
    cases ts with
    | nil => exact absurd rfl hne
    | cons t ts =>
      rw [iterTrigger]
      have hstats' :
          (handleCommand t ⟨"trigger-message", some (toJsonMessageConfig msg)⟩ s).messageStats
          = Json.obj [(msg.id, mkStatEntry msg.id 1 t [mkTimestampEntry t])] := by
        rw [handleCommand_trigger t msg hwf s]
        show updateStats s.messageStats msg.id t = _
        rw [hstats, updateStats_empty]
      obtain ⟨h1, h2⟩ := iterTrigger_stats msg hwf ts 1 t [mkTimestampEntry t] _
        (by norm_num) (by simp) hstats'
      constructor
      · rw [h1]
        congr 1
        simp only [List.length_cons]
        omega
      · rw [h2]
        simp only [List.singleton_append, List.map_cons, List.length_cons,
          List.length_nil]
        congr 2
        omega
  refine ⟨key.1, key.2, ?_⟩
  simp only [List.length_drop, List.length_map]
  omega

/-- C5 counterexample: the `triggerCount` entry is a Rust `u64`, so after
`2^64` triggers of the same id it has wrapped to 0 — not `n` as claimed for
every `n`. -/
theorem c5_counterexample :
    statTriggerCount
      (iterTrigger (legacyMessage "m" "T") (List.replicate (2 ^ 64) 0)
        initialState).messageStats "m" = some 0 ∧
    (0 : ℕ) ≠ 2 ^ 64 := by
  constructor
  · have hrep : (List.replicate (2 ^ 64) 0 : List ℕ)
        = 0 :: List.replicate (2 ^ 64 - 1) 0 := by
      rw [← List.replicate_succ]
      congr 1
    rw [hrep, iterTrigger]
    have hstats' :
        (handleCommand 0 ⟨"trigger-message",
          some (toJsonMessageConfig (legacyMessage "m" "T"))⟩ initialState).messageStats
        = Json.obj [("m", mkStatEntry "m" 1 0 [mkTimestampEntry 0])] := by
      rw [handleCommand_trigger 0 (legacyMessage "m" "T") (legacyMessage_wf "m" "T")
        initialState]
      show updateStats initialState.messageStats "m" 0 = _
      rw [show initialState.messageStats = Json.obj [] from rfl, updateStats_empty]
    obtain ⟨h1, _⟩ := iterTrigger_stats (legacyMessage "m" "T")
      (legacyMessage_wf "m" "T") (List.replicate (2 ^ 64 - 1) 0) 1 0
      [mkTimestampEntry 0] _ (by norm_num) (by simp) hstats'
    have h1' : statTriggerCount
        (iterTrigger (legacyMessage "m" "T") (List.replicate (2 ^ 64 - 1) 0)
          (handleCommand 0 ⟨"trigger-message",
            some (toJsonMessageConfig (legacyMessage "m" "T"))⟩ initialState)).messageStats
        "m" = some ((1 + (List.replicate (2 ^ 64 - 1) (0 : ℕ)).length) % 2 ^ 64) := h1
    rw [h1', List.length_replicate]
    rw [show 1 + (2 ^ 64 - 1) = 2 ^ 64 from by norm_num, Nat.mod_self]
  · norm_num

/-- Witness for C5 (amended) at one concrete trigger. -/
theorem c5_witness :
    statTriggerCount
      (iterTrigger (legacyMessage "m" "T") [5] initialState).messageStats
      (legacyMessage "m" "T").id = some (([5] : List ℕ).length % 2 ^ 64) ∧
    statHistory (iterTrigger (legacyMessage "m" "T") [5] initialState).messageStats
      (legacyMessage "m" "T").id
        = some ((List.map mkTimestampEntry ([5] : List ℕ)).drop
            (([5] : List ℕ).length - 50)) ∧
    ((List.map mkTimestampEntry ([5] : List ℕ)).drop
        (([5] : List ℕ).length - 50)).length = min ([5] : List ℕ).length 50 :=
  c5_amended (legacyMessage "m" "T") [5] initialState (legacyMessage_wf "m" "T") rfl
    (by simp)

theorem merge_mem {xs ys zs : List SseEvent} (h : Merge xs ys zs) :
    ∀ e ∈ zs, e ∈ xs ∨ e ∈ ys := by
  induction h with
  | nil =>
      intro e he
      cases he
  | left e xs ih =>
      intro f hf
      rcases List.mem_cons.mp hf with rfl | hf
      · exact Or.inl (List.mem_cons_self _ _)
      · rcases ih f hf with h1 | h2
        · exact Or.inl (List.mem_cons_of_mem _ h1)
        · exact Or.inr h2
  | right e xs ih =>
      intro f hf
      rcases List.mem_cons.mp hf with rfl | hf
      · exact Or.inr (List.mem_cons_self _ _)
      · rcases ih f hf with h1 | h2
        · exact Or.inl h1
        · exact Or.inr (List.mem_cons_of_mem _ h2)

/-- C9: a new subscriber first receives one `state` event equal to the
snapshot taken at subscribe time, before any event of the live feed: its
stream is that snapshot event followed exactly by the merged live feed,
whose every element comes from a broadcast published after subscription. -/
theorem c9_initial_snapshot (s : AppState) (bs : List BroadcastState)
    (cs : List RemoteCommand) (merged : List SseEvent)
    (hm : Merge (stateFeed bs) (commandFeed cs) merged) :
    (subscriberStream s merged).head? = some (SseEvent.state (getState s)) ∧
    (∀ i, (subscriberStream s merged).get? (i + 1) = merged.get? i) ∧
    ∀ e ∈ merged, e ∈ stateFeed bs ∨ e ∈ commandFeed cs :=
  ⟨rfl, fun _ => rfl, merge_mem hm⟩

/-- Witness for C9 at the initial state with an empty live feed. -/
theorem c9_witness :
    (subscriberStream initialState []).head?
        = some (SseEvent.state (getState initialState)) ∧
    (subscriberStream initialState []).get? 1 = ([] : List SseEvent).get? 0 :=
  ⟨(c9_initial_snapshot initialState [] [] [] Merge.nil).1,
   (c9_initial_snapshot initialState [] [] [] Merge.nil).2.1 0⟩

end VibeCast
